import Mathlib

/-!
Verification development for `analyze_slow_queries.py` (cassandra_slow_queries).

The Python source is embedded shallowly: strings are lists of characters,
Python dicts are insertion-ordered association lists, exceptions are `Except`.
Each definition mirrors one function of the source file; doc comments name
the Python symbol being modelled.
-/

set_option linter.unusedVariables false

/-- Python strings, modelled as lists of characters. -/
abbrev Str := List Char

/-- Literal helper: turn a Lean string literal into a `Str`. -/
def lit (s : String) : Str := s.toList

/-- The single-quote character, used by Python `strip("'")` calls. -/
def quoteChar : Char := Char.ofNat 39

/-- Python `s.startswith(p)`. -/
def pyStartsWith : Str → Str → Bool
  | _, [] => true
  | [], _ :: _ => false
  | c :: s, p :: ps => c = p && pyStartsWith s ps

/-- Index of the first occurrence of `sub` in `s`, if any (helper for `str.find`). -/
def findSub : Str → Str → Option Nat
  | [], sub => if pyStartsWith [] sub then some 0 else none
  | c :: rest, sub =>
    if pyStartsWith (c :: rest) sub then some 0
    else (findSub rest sub).map (· + 1)

/-- Python `s.find(sub)`: index of first occurrence, `-1` when absent. -/
def pyFind (s sub : Str) : Int :=
  match findSub s sub with
  | some i => (i : Int)
  | none => -1

/-- Python `sub in s` (substring containment). -/
def isSubstr (s sub : Str) : Bool := (findSub s sub).isSome

/-- Python `s.find(sub, start)`, including the negative-start wrap-around. -/
def pyFindFrom (s sub : Str) (start : Int) : Int :=
  let eff : Nat := if start < 0 then (start + (s.length : Int)).toNat else start.toNat
  if s.length < eff then -1
  else
    match findSub (s.drop eff) sub with
    | some i => ((eff + i : Nat) : Int)
    | none => -1

/-- Clamp a Python slice index into `[0, len]`, with negative wrap-around. -/
def pyIdx (len : Nat) (i : Int) : Nat :=
  if i < 0 then (i + (len : Int)).toNat else min i.toNat len

/-- Python slice `s[a:b]`. -/
def pySlice (s : Str) (a b : Int) : Str :=
  (s.take (pyIdx s.length b)).drop (pyIdx s.length a)

/-- Python slice `s[a:]`. -/
def pySliceFrom (s : Str) (a : Int) : Str := pySlice s a (s.length : Int)

/-- Python indexing `s[i]` (with negative wrap-around); `none` models `IndexError`. -/
def pyGet (s : Str) (i : Int) : Option Char :=
  if i < 0 then
    if i + (s.length : Int) < 0 then none else s[(i + (s.length : Int)).toNat]?
  else s[i.toNat]?

/-- Python `s.strip(cs)`: remove any of the characters `cs` from both ends. -/
def pyStrip (s : Str) (cs : List Char) : Str :=
  ((s.dropWhile (cs.contains ·)).reverse.dropWhile (cs.contains ·)).reverse

/-- Python `s.lower()` (ASCII lowering). -/
def pyLower (s : Str) : Str := s.map Char.toLower

/-- Python `s.split(sep)` for a single-character separator (keeps empty pieces). -/
def pySplitChar (s : Str) (sep : Char) : List Str :=
  match s with
  | [] => [[]]
  | c :: rest =>
    match pySplitChar rest sep with
    | [] => if c = sep then [[], []] else [[c]]
    | h :: t => if c = sep then [] :: h :: t else (c :: h) :: t

/-- Python `s.split(':', 1)` followed by a two-way unpack; `none` models `ValueError`. -/
def splitColonOnce (s : Str) : Option (Str × Str) :=
  (findSub s [':']).map (fun i => (s.take i, s.drop (i + 1)))

/-- Python `s.splitlines()` for newline-separated text. -/
def pySplitLines (s : Str) : List Str := pySplitChar s '\n'

/-- Fuel-driven worker for `pyReplace` (fuel bounds the number of scan steps). -/
def pyReplaceAux : Nat → Str → Str → Str → Str
  | 0, s, _, _ => s
  | _ + 1, [], _, _ => []
  | fuel + 1, c :: rest, needle, repl =>
    if needle ≠ [] ∧ pyStartsWith (c :: rest) needle then
      repl ++ pyReplaceAux fuel ((c :: rest).drop needle.length) needle repl
    else c :: pyReplaceAux fuel rest needle repl

/-- Python `s.replace(needle, repl)` for a non-empty `needle`
(the source never replaces an empty needle). -/
def pyReplace (s needle repl : Str) : Str := pyReplaceAux s.length s needle repl

/-- Numeric value of a digit list. -/
def digitsVal (ds : Str) : Nat := ds.foldl (fun a c => a * 10 + (c.toNat - 48)) 0

/-- Python `int(s)`: optional surrounding whitespace, optional sign, digits;
`none` models `ValueError`. -/
def pyInt (s : Str) : Option Int :=
  let t := pyStrip s [' ', '\t', '\n', '\r']
  match t with
  | '-' :: ds =>
    if ds ≠ [] ∧ ds.all Char.isDigit then some (-(digitsVal ds : Int)) else none
  | '+' :: ds =>
    if ds ≠ [] ∧ ds.all Char.isDigit then some ((digitsVal ds : Int)) else none
  | ds =>
    if ds ≠ [] ∧ ds.all Char.isDigit then some ((digitsVal ds : Int)) else none

/-- Python `'-'.join(parts)` and friends. -/
def pyJoin (sep : Str) (parts : List Str) : Str := List.intercalate sep parts

/-- Truthiness of an optional string (`None` and `''` are falsy). -/
def truthyOptStr : Option Str → Bool
  | none => false
  | some s => !s.isEmpty

section PyDict

variable {κ β : Type} [DecidableEq κ]

/-- Lookup in an insertion-ordered dict (association list). -/
def dictGet : List (κ × β) → κ → Option β
  | [], _ => none
  | (k', v) :: rest, k => if k' = k then some v else dictGet rest k

/-- Python `k in d`. -/
def dictHas (m : List (κ × β)) (k : κ) : Bool := (dictGet m k).isSome

/-- Replace the value at key `k` everywhere it occurs, keeping positions. -/
def dictSetIn : List (κ × β) → κ → β → List (κ × β)
  | [], _, _ => []
  | (k', w) :: rest, k, v =>
    if k' = k then (k, v) :: dictSetIn rest k v else (k', w) :: dictSetIn rest k v

/-- Python `d[k] = v`: replace in place when present, append otherwise. -/
def dictSet (m : List (κ × β)) (k : κ) (v : β) : List (κ × β) :=
  if dictHas m k then dictSetIn m k v else m ++ [(k, v)]

/-- In-place update of the value stored at key `k`. -/
def dictMap : List (κ × β) → κ → (β → β) → List (κ × β)
  | [], _, _ => []
  | (k', w) :: rest, k, f =>
    if k' = k then (k', f w) :: dictMap rest k f else (k', w) :: dictMap rest k f

/-- The key sequence of a dict. -/
def dictKeys (m : List (κ × β)) : List κ := m.map (·.1)

/-- The value sequence of a dict (Python `d.values()`). -/
def dictVals (m : List (κ × β)) : List β := m.map (·.2)

end PyDict

/-! ### SchemaProcessor -/

/-- Key structure parsed for one table. -/
structure KeyMeta where
  primaryKey : List Str
  clusteringKey : List Str
deriving DecidableEq

/-- A table's catalog value: `none` models the empty `{}` placeholder created by
a `CREATE TABLE` line before any key declaration is seen. -/
abbrev TableVal := Option KeyMeta

/-- The processed schema: keyspace -> column family -> key structure.  Key parts
are `Option Str` because `str_slice` can yield `None` for malformed lines. -/
abbrev Catalog := List (Option Str × List (Option Str × TableVal))

/-- `str_slice` from the source: the text strictly between `before` and `after`. -/
def strSlice (string before after : Str) : Option Str :=
  match findSub string before with
  | none => none
  | some start =>
    let rest := string.drop (start + before.length)
    match findSub rest after with
    | none => none
    | some e => some (rest.take e)

/-- `SchemaProcessor._parse_create_table`. -/
def parseCreateTable (s : Str) : Option Str × Option Str :=
  (strSlice s (lit "CREATE TABLE ") (lit "."), strSlice s (lit ".") (lit " "))

/-- `SchemaProcessor._parse_keys`. -/
def parseKeys (line : Str) : List Str × List Str :=
  let pkStr := pyReplace line (lit "PRIMARY KEY ") []
  if pyStartsWith pkStr (lit "((") then
    let split := pyFind pkStr (lit ")")
    let primary := pyReplace (pySlice pkStr 0 split) (lit "((") []
    let primaryKeys := (pySplitChar primary ',').map (fun v => pyStrip v [' '])
    let clustering := pyReplace (pySliceFrom pkStr (split + 1)) (lit ")") []
    let clusteringKeys :=
      ((pySplitChar clustering ',').filter (fun v => !v.isEmpty)).map (fun v => pyStrip v [' '])
    (primaryKeys, clusteringKeys)
  else
    let flat := pyReplace (pyReplace pkStr (lit "(") []) (lit ")") []
    let keys := (pySplitChar flat ',').map (fun v => pyStrip v [' '])
    (keys.take 1, keys.drop 1)

/-- `SchemaProcessor._parse_primary_column`. -/
def parsePrimaryColumn (s : Str) : Str :=
  let t := pyReplace (pyStrip s [' ', ',']) (lit " PRIMARY KEY") []
  match pySplitChar t ' ' with
  | [] => []
  | h :: _ => h

/-- `ret[keyspace][column_family] = meta` inside `SchemaProcessor.process`. -/
def catalogAssign (ret : Catalog) (ks cf : Option Str) (meta : TableVal) : Catalog :=
  dictSet ret ks (dictSet ((dictGet ret ks).getD []) cf meta)

/-- The `CREATE TABLE` branch of `SchemaProcessor.process`: register the parsed
keyspace and table with an empty `{}` placeholder where absent. -/
def createTableInit (ret : Catalog) (line : Str) : Catalog :=
  let kc := parseCreateTable line
  let ret1 := if dictHas ret kc.1 then ret else dictSet ret kc.1 []
  let inner := (dictGet ret1 kc.1).getD []
  if dictHas inner kc.2 then ret1 else dictSet ret1 kc.1 (dictSet inner kc.2 none)

/-- The line loop of `SchemaProcessor.process`, carrying the current
keyspace/column-family context (a `CREATE TABLE` line replaces all three
pieces of state, other lines leave them unchanged). -/
def processLines : List Str → Catalog → Option Str → Option Str → Except Str Catalog
  | [], ret, _, _ => .ok ret
  | line :: rest, ret0, ks0, cf0 =>
    let isCT := isSubstr line (lit "CREATE TABLE")
    let ret := if isCT then createTableInit ret0 line else ret0
    let ks := if isCT then (parseCreateTable line).1 else ks0
    let cf := if isCT then (parseCreateTable line).2 else cf0
    if isSubstr line (lit "PRIMARY KEY (") then
      if !truthyOptStr ks || !truthyOptStr cf then
        .error (lit "Unable to process schema line " ++ line)
      else
        let pkck := parseKeys line
        processLines rest (catalogAssign ret ks cf (some ⟨pkck.1, pkck.2⟩)) none none
    else if isSubstr line (lit "PRIMARY KEY") then
      if !truthyOptStr ks || !truthyOptStr cf then
        .error (lit "Unable to process schema line " ++ line)
      else
        processLines rest (catalogAssign ret ks cf (some ⟨[parsePrimaryColumn line], []⟩)) none none
    else processLines rest ret ks cf

/-- `SchemaProcessor.process`. -/
def schemaProcess (schema : Str) : Except Str Catalog :=
  processLines (pySplitLines schema) [] none none

/-! ### Configuration -/

/-- The `--order-by` choices (argparse rejects anything else up front). -/
inductive OrderBy
  | duration
  | avgDuration
  | count
deriving DecidableEq

/-- One entry of the `--queries` pattern list. -/
structure QueryPatternCfg where
  start : Str
  parameters : List Str

/-- `Config`.  `queries` and `tags` are `Option` because their default is
`None`; an absent schema defaults to the empty catalog `{}`. -/
structure Config where
  topN : Nat := 100
  rowsPerMinute : Nat := 5
  orderBy : OrderBy := .duration
  minCount : Nat := 5
  schema : Catalog := []
  queries : Option (List QueryPatternCfg) := none
  tags : Option (List (Str × Str)) := none

/-- Truthiness of `config.tags` (`None` and `{}` are falsy). -/
def cfgTagsTruthy (config : Config) : Bool :=
  match config.tags with
  | some l => !l.isEmpty
  | none => false

/-! ### MessageProcessor helpers -/

/-- `MessageProcessor._get_bound_values`: tokens without a `:` raise
`ValueError`, which the source logs and skips. -/
def getBoundValues (boundValuesStr : Str) : List (Str × Str) :=
  let s := pyReplace (pyReplace boundValuesStr (lit "[") []) (lit "]") []
  (pySplitChar s ',').foldl
    (fun ret v =>
      match splitColonOnce v with
      | some kv => dictSet ret (pyStrip kv.1 [' ']) (pyStrip kv.2 [quoteChar])
      | none => ret)
    []

/-- The `except KeyError` branch of `_get_primary_key`.  Its warning message
interpolates `', '.join(config.tags)`, which raises `TypeError` when no tags
mapping is configured (`config.tags is None`); otherwise the branch returns
`None`. -/
def noSchemaBranch (config : Config) : Except Str (Option Str) :=
  match config.tags with
  | some _ => .ok none
  | none => .error (lit "TypeError")

/-- `MessageProcessor._get_primary_key`: join the bound values of the table's
partition-key fields; a field missing from the bound values is logged and
skipped by the inner `except KeyError`. -/
def getPrimaryKey (config : Config) (boundValues : List (Str × Str))
    (keyspace columnFamily : Str) : Except Str (Option Str) :=
  match dictGet config.schema (some keyspace) with
  | none => noSchemaBranch config
  | some tables =>
    match dictGet tables (some columnFamily) with
    | none => noSchemaBranch config
    | some none => noSchemaBranch config
    | some (some cfMeta) =>
      .ok (some (pyJoin (lit "-")
        (cfMeta.primaryKey.foldl
          (fun acc field =>
            match dictGet boundValues field with
            | some v => acc ++ [v]
            | none => acc)
          [])))

/-- One step of `_build_keyspace_guesses`: record `q.2` as the keyspace owning
column family `q.1`, or the marker `'unknown'` when `q.1` is already owned. -/
def guessStep (acc : List (Option Str × Option Str)) (q : Option Str × Option Str) :
    List (Option Str × Option Str) :=
  if dictHas acc q.1 then dictSet acc q.1 (some (lit "unknown"))
  else dictSet acc q.1 q.2

/-- `MessageProcessor._build_keyspace_guesses`: column family -> keyspace, with
the literal string `'unknown'` as the ambiguity marker. -/
def buildKeyspaceGuesses (schema : Catalog) : List (Option Str × Option Str) :=
  schema.foldl (fun acc p => p.2.foldl (fun acc q => guessStep acc (q.1, p.1)) acc) []

/-- `MessageProcessor._guess_keyspace`.  The global `CF_KEYSPACES` cache is
built lazily from the configured schema and never mutated afterwards, so it is
modelled as the pure `buildKeyspaceGuesses config.schema`. -/
def guessKeyspace (config : Config) (columnFamily : Str) (tags : List Str) : Option Str :=
  let guesses := buildKeyspaceGuesses config.schema
  let tagsDict := config.tags.getD []
  let tagResult : Option Str :=
    if cfgTagsTruthy config &&
        (!dictHas guesses (some columnFamily) ||
          dictGet guesses (some columnFamily) = some (some (lit "unknown"))) then
      (tags.find? (fun t => dictHas tagsDict t)).bind (fun t => dictGet tagsDict t)
    else none
  match tagResult with
  | some ks => some ks
  | none =>
    match dictGet guesses (some columnFamily) with
    | some v => v
    | none => none

/-- `MessageProcessor._get_keyspace_cf`.  A dotted table segment with more than
one dot makes the two-way unpack of `table.split('.')` raise `ValueError`. -/
def getKeyspaceCf (config : Config) (table : Str) (tags : List Str) :
    Except Str (Option Str × Option Str) :=
  if isSubstr table (lit ".") then
    match pySplitChar table '.' with
    | [k, c] => .ok (some (pyLower k), some (pyLower c))
    | _ => .error (lit "ValueError")
  else
    let cf := pyLower table
    .ok (guessKeyspace config cf tags, some cf)

/-! ### Log records, events, and the per-statement processors -/

/-- The parsed log dict produced by `get_log`, with the record's tags attached
by `process_message`. -/
structure Log where
  duration : Str
  counts : Option Str
  boundValues : Option Str
  query : Str
  tags : List Str
deriving DecidableEq

/-- The normalized query event: the `ret` dict of `process_message` after
`ret.update(data)`.  The defaults are `ret`'s initial values; processors that
omit a key (BATCH/DELETE/UPDATE) leave the default in place. -/
structure Event where
  type : Str
  duration : Int
  query : Str
  boundValues : List (Str × Str) := []
  primaryKey : Option Str := none
  keyspace : Option Str := none
  columnFamily : Option Str := none
deriving DecidableEq

/-- `SelectMessageProcessor.handles`. -/
def selectHandles (log : Log) : Bool :=
  pyStartsWith log.query (lit "SELECT") || pyStartsWith log.query (lit "select")

/-- `BatchMessageProcessor.handles`. -/
def batchHandles (log : Log) : Bool :=
  pyStartsWith log.query (lit "BEGIN BATCH") || pyStartsWith log.query (lit "begin batch")

/-- `InsertMessageProcessor.handles`. -/
def insertHandles (log : Log) : Bool :=
  pyStartsWith log.query (lit "INSERT") || pyStartsWith log.query (lit "insert")

/-- `DeleteMessageProcessor.handles`. -/
def deleteHandles (log : Log) : Bool :=
  pyStartsWith log.query (lit "DELETE") || pyStartsWith log.query (lit "delete")

/-- `UpdateMessageProcessor.handles`. -/
def updateHandles (log : Log) : Bool :=
  pyStartsWith log.query (lit "UPDATE") || pyStartsWith log.query (lit "update")

/-- `QueryPattern.matches`. -/
def queryPatternMatches (query : Str) (pattern : QueryPatternCfg) : Bool :=
  pyStartsWith query pattern.start

/-- The `temp` remainder of one `QueryPattern.process` iteration: everything
after the first `=` that follows the first occurrence of `name`, with spaces
stripped from both ends. -/
def paramTail (query name : Str) : Str :=
  let start := pyFindFrom query (lit "=") (pyFind query name + (name.length : Int)) + 1
  pyStrip (pySliceFrom query start) [' ']

/-- One iteration of the `QueryPattern.process` loop: the candidate value for a
single parameter `name` inside `query`, or `none` when the iteration hits
`continue`. -/
def extractValue (query name : Str) : Option Str :=
  let temp := paramTail query name
  let e1 := pyFind temp (lit " ")
  let e2 := if e1 = -1 then pyFind temp (lit ",") else e1
  let e3 := if e2 = -1 then pyFind temp (lit ";") else e2
  if e3 = -1 then none else some (pySlice temp 0 e3)

/-- `QueryPattern.process`: extract each parameter in order, replacing extracted
values with `?` before the next parameter is processed. -/
def queryPatternProcess (query : Str) (pattern : QueryPatternCfg) : Str × List (Str × Str) :=
  pattern.parameters.foldl
    (fun st name =>
      match extractValue st.1 name with
      | none => st
      | some value =>
        (pyReplace st.1 value (lit "?"),
         dictSet st.2 (pyLower name) (pyStrip value [quoteChar])))
    (query, [])

/-- `SelectMessageProcessor._get_table`. -/
def selectGetTable (query : Str) : Option Str :=
  let t := strSlice query (lit " FROM ") (lit " ")
  let t := if truthyOptStr t then t else strSlice query (lit " from ") (lit " ")
  let t := if truthyOptStr t then t else strSlice query (lit " FROM ") (lit ";")
  if truthyOptStr t then t else strSlice query (lit " from ") (lit ";")

/-- `InsertMessageProcessor._get_table`. -/
def insertGetTable (query : Str) : Option Str :=
  let t := strSlice query (lit "INSERT INTO ") (lit " ")
  if truthyOptStr t then t else strSlice query (lit "insert into ") (lit " ")

/-- `SelectMessageProcessor.process`. -/
def selectProcess (log : Log) (config : Config) : Except Str Event := do
  let duration ←
    match pyInt log.duration with
    | some d => Except.ok d
    | none => Except.error (lit "ValueError")
  let qbv : Str × List (Str × Str) :=
    if truthyOptStr log.boundValues then
      (log.query, getBoundValues (log.boundValues.getD []))
    else
      match config.queries with
      | some pats =>
        if pats.isEmpty then (log.query, [])
        else
          match pats.find? (fun p => queryPatternMatches log.query p) with
          | some p => queryPatternProcess log.query p
          | none => (log.query, [])
      | none => (log.query, [])
  let query := qbv.1
  let boundValues := qbv.2
  let tableSegment := selectGetTable query
  let kc ←
    if truthyOptStr tableSegment then
      getKeyspaceCf config (tableSegment.getD []) log.tags
    else .ok (none, none)
  let keyspace := kc.1
  let columnFamily := kc.2
  let primaryKey ←
    if !boundValues.isEmpty && truthyOptStr keyspace && truthyOptStr columnFamily then
      getPrimaryKey config boundValues (keyspace.getD []) (columnFamily.getD [])
    else .ok none
  .ok { type := lit "SELECT", duration, query, boundValues, keyspace, columnFamily, primaryKey }

/-- `InsertMessageProcessor.process`. -/
def insertProcess (log : Log) (config : Config) : Except Str Event := do
  let boundValues :=
    if truthyOptStr log.boundValues then getBoundValues (log.boundValues.getD []) else []
  let tableSegment := insertGetTable log.query
  let kc ←
    if truthyOptStr tableSegment then
      getKeyspaceCf config (tableSegment.getD []) log.tags
    else .ok (none, none)
  let keyspace := kc.1
  let columnFamily := kc.2
  let primaryKey ←
    if !boundValues.isEmpty && truthyOptStr keyspace && truthyOptStr columnFamily then
      getPrimaryKey config boundValues (keyspace.getD []) (columnFamily.getD [])
    else .ok none
  let duration ←
    match pyInt log.duration with
    | some d => Except.ok d
    | none => Except.error (lit "ValueError")
  .ok { type := lit "INSERT", duration, query := log.query, boundValues,
        keyspace, columnFamily, primaryKey }

/-- `BatchMessageProcessor.process`. -/
def batchProcess (log : Log) (config : Config) : Except Str Event :=
  match pyInt log.duration with
  | some d => .ok { type := lit "BATCH", duration := d, query := log.query }
  | none => .error (lit "ValueError")

/-- `DeleteMessageProcessor.process`: type, duration and query only, so the
event keeps `ret`'s `primary_key: None`. -/
def deleteProcess (log : Log) (config : Config) : Except Str Event :=
  match pyInt log.duration with
  | some d => .ok { type := lit "DELETE", duration := d, query := log.query }
  | none => .error (lit "ValueError")

/-- `UpdateMessageProcessor.process`. -/
def updateProcess (log : Log) (config : Config) : Except Str Event :=
  match pyInt log.duration with
  | some d => .ok { type := lit "UPDATE", duration := d, query := log.query }
  | none => .error (lit "ValueError")

/-- A statement extractor: the `handles`/`process` capability pair. -/
structure Processor where
  handles : Log → Bool
  process : Log → Config → Except Str Event

/-- The fixed, ordered `processors` list. -/
def processors : List Processor :=
  [⟨selectHandles, selectProcess⟩,
   ⟨batchHandles, batchProcess⟩,
   ⟨insertHandles, insertProcess⟩,
   ⟨deleteHandles, deleteProcess⟩,
   ⟨updateHandles, updateProcess⟩]

/-- The dispatch loop of `process_message`: first matching processor wins,
otherwise `Exception('No processor available')`. -/
def processMessageCore (log : Log) (config : Config) : Except Str Event :=
  match processors.find? (fun p => p.handles log) with
  | some p => p.process log config
  | none => .error (lit "No processor available")

/-! ### get_log and process_message -/

/-- The parts `get_log` extracts from one raw message. -/
structure LogParts where
  duration : Str
  counts : Option Str
  boundValues : Option Str
  query : Str
deriving DecidableEq

/-- `get_log`. -/
def getLog (message : Str) : Except Str LogParts :=
  let buff := message
  match findSub buff (lit "Query too slow, took ") with
  | none => .error (lit "Not a slow query log")
  | some ptr0 =>
    let ptr : Int := (ptr0 : Int)
    let posMs := pyFindFrom buff (lit " ms: ") ptr
    if posMs = -1 then .error (lit "Unable to find query time")
    else
      let duration := pySlice buff (ptr + 21) posMs
      let ptr := posMs + 5
      match pyGet buff (posMs + 5) with
      | none => .error (lit "IndexError")
      | some ch =>
        let cp : Option Str × Int :=
          if ch = '[' then
            let e := pyFindFrom buff (lit "]") ptr
            (some (pySlice buff ptr (e + 1)), e + 2)
          else (none, ptr)
        let counts := cp.1
        let ptr := cp.2
        let br : Option Str × Int :=
          if truthyOptStr counts then
            let start := pyFindFrom buff (lit "; [") ptr
            let start := if start = -1 then pyFindFrom buff (lit "] [") ptr else start
            if start ≠ -1 then (some (pySliceFrom buff (start + 2)), start + 1)
            else (none, (buff.length : Int))
          else (none, (buff.length : Int))
        .ok { duration, counts, boundValues := br.1, query := pySlice buff ptr br.2 }

/-- `process_message` without the timestamp conversion (the parsed timestamp is
carried along unchanged and only matters for the per-minute bucketing,
modelled separately for `analyze`). -/
def processMessage (message : Str) (tags : List Str) (config : Config) : Except Str Event := do
  let parts ← getLog message
  processMessageCore
    { duration := parts.duration, counts := parts.counts,
      boundValues := parts.boundValues, query := parts.query, tags } config

/-! ### analyze: rollups, filtering, averaging, ranking -/

/-- A rollup entry during the fold: count, duration total and the grouping
fields created with the entry. -/
structure Agg (γ : Type) where
  count : Nat
  duration : Int
  group : γ
deriving DecidableEq

/-- A rollup entry after the `avg_duration` pass. -/
structure RAgg (γ : Type) where
  count : Nat
  duration : Int
  avgDuration : Int
  group : γ
deriving DecidableEq

/-- Grouping fields of the by-query rollup. -/
structure QGrp where
  query : Str
  keyspace : Str
  columnFamily : Str
deriving DecidableEq

/-- Grouping fields of the by-query-pk rollup. -/
structure QPGrp where
  query : Str
  primaryKey : Str
  keyspace : Str
  columnFamily : Str
deriving DecidableEq

/-- Grouping fields of the keyspace-cf-pk rollup. -/
structure PKGrp where
  keyspace : Str
  columnFamily : Str
  primaryKey : Str
deriving DecidableEq

/-- Grouping fields of the per-minute volume rollup. -/
structure VGrp where
  minute : Str
deriving DecidableEq

/-- Grouping fields of the per-minute top rollup. -/
structure VTGrp where
  query : Str
  primaryKey : Str
  minute : Str
deriving DecidableEq

/-- One element of the `data` list fed to `analyze`: a processed event together
with its minute bucket `datum['timestamp'].strftime('%Y-%m-%d %H:%M')`. -/
structure Datum where
  minute : Str
  duration : Int
  query : Str
  primaryKey : Option Str := none
  keyspace : Option Str := none
  columnFamily : Option Str := none
deriving DecidableEq

/-- `datum.get(key, '') or ''`. -/
def pyOrEmpty (o : Option Str) : Str := o.getD []

/-- `primary_key` as read by `analyze`. -/
def pkOf (d : Datum) : Str := pyOrEmpty d.primaryKey

/-- `keyspace` as read by `analyze`. -/
def ksOf (d : Datum) : Str := pyOrEmpty d.keyspace

/-- `column_family` as read by `analyze`. -/
def cfOf (d : Datum) : Str := pyOrEmpty d.columnFamily

/-- The by-query rollup key. -/
def qKey (d : Datum) : Str := d.query

/-- `query_pk = query + '.' + primary_key`. -/
def qpkKey (d : Datum) : Str := d.query ++ lit "." ++ pkOf d

/-- `ks_cf_pk = keyspace + '.' + column_family + '.' + primary_key`. -/
def kcpKey (d : Datum) : Str := ksOf d ++ lit "." ++ cfOf d ++ lit "." ++ pkOf d

/-- Grouping fields stored when a by-query entry is created. -/
def qGrp (d : Datum) : QGrp := ⟨d.query, ksOf d, cfOf d⟩

/-- Grouping fields stored when a by-query-pk entry is created. -/
def qpGrp (d : Datum) : QPGrp := ⟨d.query, pkOf d, ksOf d, cfOf d⟩

/-- Grouping fields stored when a keyspace-cf-pk entry is created. -/
def pkGrp (d : Datum) : PKGrp := ⟨ksOf d, cfOf d, pkOf d⟩

/-- Grouping fields stored when a volume entry is created. -/
def vGrp (d : Datum) : VGrp := ⟨d.minute⟩

/-- Grouping fields stored when a volume-top entry is created. -/
def vtGrp (d : Datum) : VTGrp := ⟨d.query, pkOf d, d.minute⟩

/-- Create-if-absent followed by `count += 1; duration += d`, the update pattern
shared by all five rollups in `analyze`. -/
def bump {γ : Type} (m : List (Str × Agg γ)) (k : Str) (g : γ) (dur : Int) :
    List (Str × Agg γ) :=
  let m1 := if dictHas m k then m else m ++ [(k, ⟨0, 0, g⟩)]
  dictMap m1 k (fun e => { e with count := e.count + 1, duration := e.duration + dur })

/-- The nested volume-top update: create the minute bucket if absent, then bump
the inner query-pk entry. -/
def bumpNested {γ : Type} (m : List (Str × List (Str × Agg γ))) (minute k : Str)
    (g : γ) (dur : Int) : List (Str × List (Str × Agg γ)) :=
  let m1 := if dictHas m minute then m else m ++ [(minute, [])]
  dictMap m1 minute (fun inner => bump inner k g dur)

/-- The five rollup dicts of `analyze` (the `analysis` dict during the fold). -/
structure AMaps where
  query : List (Str × Agg QGrp) := []
  queryPk : List (Str × Agg QPGrp) := []
  primaryKey : List (Str × Agg PKGrp) := []
  volume : List (Str × Agg VGrp) := []
  volumeTop : List (Str × List (Str × Agg VTGrp)) := []

/-- The body of the `for datum in data` loop of `analyze`. -/
def analyzeStep (a : AMaps) (d : Datum) : AMaps :=
  { query := bump a.query (qKey d) (qGrp d) d.duration,
    queryPk :=
      if pkOf d ≠ [] then bump a.queryPk (qpkKey d) (qpGrp d) d.duration else a.queryPk,
    primaryKey :=
      if pkOf d ≠ [] ∧ ksOf d ≠ [] ∧ cfOf d ≠ [] then
        bump a.primaryKey (kcpKey d) (pkGrp d) d.duration
      else a.primaryKey,
    volume := bump a.volume d.minute (vGrp d) d.duration,
    volumeTop := bumpNested a.volumeTop d.minute (qpkKey d) (vtGrp d) d.duration }

/-- The full aggregation fold of `analyze`. -/
def analyzeFold (data : List Datum) : AMaps := data.foldl analyzeStep {}

/-- The `count >= config.min_count` dict comprehensions. -/
def filterMinCount {γ : Type} (minCount : Nat) (m : List (Str × Agg γ)) :
    List (Str × Agg γ) :=
  m.filter (fun p => minCount ≤ p.2.count)

/-- The min-count filtering phase of `analyze` over all five rollups. -/
def filterStage (config : Config) (a : AMaps) : AMaps :=
  { query := filterMinCount config.minCount a.query,
    queryPk := filterMinCount config.minCount a.queryPk,
    primaryKey := filterMinCount config.minCount a.primaryKey,
    volume := filterMinCount config.minCount a.volume,
    volumeTop := a.volumeTop.map (fun p => (p.1, filterMinCount config.minCount p.2)) }

/-- `v['avg_duration'] = int(v['duration'] / v['count'])` (truncating division;
every surviving entry has `count >= 1`). -/
def avgEntry {γ : Type} (e : Agg γ) : RAgg γ :=
  ⟨e.count, e.duration, Int.tdiv e.duration (e.count : Int), e.group⟩

/-- The average-duration pass over one rollup dict. -/
def avgMap {γ : Type} (m : List (Str × Agg γ)) : List (Str × RAgg γ) :=
  m.map (fun p => (p.1, avgEntry p.2))

/-- The rollup dicts after filtering and averaging. -/
structure RMaps where
  query : List (Str × RAgg QGrp)
  queryPk : List (Str × RAgg QPGrp)
  primaryKey : List (Str × RAgg PKGrp)
  volume : List (Str × RAgg VGrp)
  volumeTop : List (Str × List (Str × RAgg VTGrp))

/-- The average-duration phase of `analyze`. -/
def avgStage (a : AMaps) : RMaps :=
  { query := avgMap a.query,
    queryPk := avgMap a.queryPk,
    primaryKey := avgMap a.primaryKey,
    volume := avgMap a.volume,
    volumeTop := a.volumeTop.map (fun p => (p.1, avgMap p.2)) }

/-- The filtered and averaged rollups for a run of `analyze`. -/
def rankedMaps (data : List Datum) (config : Config) : RMaps :=
  avgStage (filterStage config (analyzeFold data))

/-- The sort key `lambda i: i[config.order_by]`. -/
def orderKey {γ : Type} (config : Config) (e : RAgg γ) : Int :=
  match config.orderBy with
  | .duration => e.duration
  | .avgDuration => e.avgDuration
  | .count => (e.count : Int)

/-- Insert into a descending-sorted list, before the first element whose key is
not larger — equal keys keep their original relative order. -/
def insertDesc {γ : Type} (k : RAgg γ → Int) (x : RAgg γ) : List (RAgg γ) → List (RAgg γ)
  | [] => [x]
  | y :: ys => if k x < k y then y :: insertDesc k x ys else x :: y :: ys

/-- Python `sorted(..., key=..., reverse=True)`: a stable descending sort
(insertion sort is stable, so it computes the same list as CPython's stable
sort with `reverse=True`). -/
def sortDesc {γ : Type} (config : Config) (l : List (RAgg γ)) : List (RAgg γ) :=
  l.foldr (insertDesc (orderKey config)) []

/-- The by-query report rows before the `top_n` truncation. -/
def queryRanked (data : List Datum) (config : Config) : List (RAgg QGrp) :=
  sortDesc config (dictVals (rankedMaps data config).query)

/-- The by-query-pk report rows before the `top_n` truncation. -/
def queryPkRanked (data : List Datum) (config : Config) : List (RAgg QPGrp) :=
  sortDesc config (dictVals (rankedMaps data config).queryPk)

/-- The keyspace-cf-pk report rows before the `top_n` truncation. -/
def primaryKeyRanked (data : List Datum) (config : Config) : List (RAgg PKGrp) :=
  sortDesc config (dictVals (rankedMaps data config).primaryKey)

/-- One minute's volume-top rows before the `rows_per_minute` truncation. -/
def volumeTopRankedAt (data : List Datum) (config : Config) (minute : Str) :
    List (RAgg VTGrp) :=
  sortDesc config (dictVals ((dictGet (rankedMaps data config).volumeTop minute).getD []))

/-- The final report rows produced by `analyze`. -/
structure Analysis where
  query : List (RAgg QGrp)
  queryPk : List (RAgg QPGrp)
  primaryKey : List (RAgg PKGrp)
  volume : List (RAgg VGrp)
  volumeTop : List (RAgg VTGrp)

/-- `analyze`: fold, min-count filter, averages, then sort and limit.  The
volume report is emitted in dict insertion order (`analysis['volume'].values()`,
commented `Volume already sorted by timestamp` in the source), and the
volume-top report is flattened over the minute dict in the same order. -/
def analyze (data : List Datum) (config : Config) : Analysis :=
  let r := rankedMaps data config
  { query := (sortDesc config (dictVals r.query)).take config.topN,
    queryPk := (sortDesc config (dictVals r.queryPk)).take config.topN,
    primaryKey := (sortDesc config (dictVals r.primaryKey)).take config.topN,
    volume := dictVals r.volume,
    volumeTop :=
      (r.volumeTop.map
        (fun p => (sortDesc config (dictVals p.2)).take config.rowsPerMinute)).flatten }

/-! ### Generic rollup folds (proof infrastructure) -/

section RollupFold

variable {γ : Type} (guard : Datum → Prop) [DecidablePred guard]
variable (key : Datum → Str) (grp : Datum → γ)

/-- One guarded rollup update, the shape shared by the flat rollups of
`analyze`. -/
def rollupStep (m : List (Str × Agg γ)) (d : Datum) : List (Str × Agg γ) :=
  if guard d then bump m (key d) (grp d) d.duration else m

/-- Fold a data sequence through one guarded rollup. -/
def rollupFold (data : List Datum) (init : List (Str × Agg γ)) : List (Str × Agg γ) :=
  data.foldl (rollupStep guard key grp) init

end RollupFold

/-- The volume-top update as a standalone step. -/
def nestedStep (m : List (Str × List (Str × Agg VTGrp))) (d : Datum) :
    List (Str × List (Str × Agg VTGrp)) :=
  bumpNested m d.minute (qpkKey d) (vtGrp d) d.duration

/-- Fold a data sequence through the volume-top rollup. -/
def nestedFold (data : List Datum) (init : List (Str × List (Str × Agg VTGrp))) :
    List (Str × List (Str × Agg VTGrp)) :=
  data.foldl nestedStep init

/-- The inner fold for one minute bucket of the volume-top rollup. -/
def bumpFold (data : List Datum) (init : List (Str × Agg VTGrp)) :
    List (Str × Agg VTGrp) :=
  data.foldl (fun i d => bump i (qpkKey d) (vtGrp d) d.duration) init

/-- Two-level lookup into the nested volume-top dict. -/
def nestedGet {α : Type} (m : List (Str × List (Str × α))) (a b : Str) : Option α :=
  (dictGet m a).bind (fun inner => dictGet inner b)

/-! ### Claim-side reference definitions -/

/-- The catalog lookup chain performed by `_get_primary_key`, collapsing the
three `KeyError` sources (`keyspace`, `column_family`, `'primary_key'`). -/
def lookupKeyMeta (schema : Catalog) (keyspace columnFamily : Str) : Option KeyMeta :=
  match dictGet schema (some keyspace) with
  | none => none
  | some tables =>
    match dictGet tables (some columnFamily) with
    | some (some m) => some m
    | _ => none

/-- Claim C1, amended: the primary key is the `-`-joined concatenation of the
bound values of exactly those partition-key fields that have a resolved bound
value, in catalog-declared order (clustering fields excluded); fields without
a bound value are skipped rather than suppressing the key. -/
def claimPrimaryKey (config : Config) (boundValues : List (Str × Str))
    (keyspace columnFamily : Str) : Except Str (Option Str) :=
  match lookupKeyMeta config.schema keyspace columnFamily with
  | some m => .ok (some (pyJoin (lit "-") (m.primaryKey.filterMap (dictGet boundValues))))
  | none => noSchemaBranch config

/-- The priority semantics the pattern matcher actually implements: the token
ends at the first space when the remainder contains one, otherwise at the
first comma, otherwise at the first semicolon, otherwise the parameter is
skipped. -/
def priorityToken (temp : Str) : Option Str :=
  if temp.contains ' ' then some (temp.takeWhile (fun c => c ≠ ' '))
  else if temp.contains ',' then some (temp.takeWhile (fun c => c ≠ ','))
  else if temp.contains ';' then some (temp.takeWhile (fun c => c ≠ ';'))
  else none

/-- Claim C3 as stated: the token ends at whichever of space, comma or
semicolon occurs first in the remainder. -/
def firstTerminatorToken (temp : Str) : Option Str :=
  if temp.any (fun c => c = ' ' || c = ',' || c = ';') then
    some (temp.takeWhile (fun c => !(c = ' ' || c = ',' || c = ';')))
  else none

/-- Claim C3's reading of the extraction, built from the same remainder. -/
def claimExtractValue (query name : Str) : Option Str :=
  firstTerminatorToken (paramTail query name)

/-- Claim C8's notion of a key-declaration line without table context: scan the
lines in order; a table-declaration line (re)establishes the context exactly
when both its parsed keyspace and table name are non-empty; a key-declaration
line consumes the context; the flag trips when a key-declaration line is
reached without an established context. -/
def orphanKeyLine : List Str → Bool → Bool
  | [], _ => false
  | line :: rest, est0 =>
    let est :=
      if isSubstr line (lit "CREATE TABLE") then
        truthyOptStr (parseCreateTable line).1 && truthyOptStr (parseCreateTable line).2
      else est0
    if isSubstr line (lit "PRIMARY KEY") then
      if !est then true else orphanKeyLine rest false
    else orphanKeyLine rest est

/-- Claim C8's fatal-error condition over a whole schema text. -/
def hasOrphanKeyLine (schema : Str) : Bool :=
  orphanKeyLine (pySplitLines schema) false

/-- Lexicographic order on character lists (string order, for minute keys). -/
def strLe : Str → Str → Bool
  | [], _ => true
  | _ :: _, [] => false
  | a :: as, b :: bs => if a = b then strLe as bs else decide (a.toNat < b.toNat)

/-- Whether a projected sequence of minute keys is ascending. -/
def sortedAscBool {α : Type} (f : α → Str) : List α → Bool
  | [] => true
  | [_] => true
  | x :: y :: rest => strLe (f x) (f y) && sortedAscBool f (y :: rest)

/-! ### Concrete inputs used by the claim theorems -/

/-- Schema text with a composite partition key `((a, b), c)`. -/
def c1SchemaText : Str := lit "CREATE TABLE ks.t (\nPRIMARY KEY ((a, b), c)\n)"

/-- Config carrying the parsed `c1SchemaText`. -/
def c1Config : Config := { schema := (schemaProcess c1SchemaText).toOption.getD [] }

/-- A SELECT log whose bound values cover partition field `a` but not `b`. -/
def c1Log : Log :=
  { duration := lit "45", counts := some (lit "[1 bound values]"),
    boundValues := some (lit "[a:'1']"),
    query := lit "SELECT * FROM ks.t WHERE a=?;", tags := [] }

/-- A SELECT log binding every field of the composite key. -/
def c1FullLog : Log :=
  { duration := lit "45", counts := some (lit "[3 bound values]"),
    boundValues := some (lit "[a:'1', b:'2', c:'3']"),
    query := lit "SELECT * FROM ks.t WHERE a=? AND b=? AND c=?;", tags := [] }

/-- Schema text for the end-to-end claim: `ks1.users` with partition key
`[user_id]`. -/
def c2SchemaText : Str :=
  lit "CREATE TABLE ks1.users (\n    user_id text,\n    PRIMARY KEY (user_id)\n);"

/-- Config carrying the parsed `c2SchemaText`. -/
def c2Config : Config := { schema := (schemaProcess c2SchemaText).toOption.getD [] }

/-- The exact message quoted by the claim (bracketed count after the query). -/
def c2MsgSpec : Str :=
  lit "Query too slow, took 45 ms: SELECT * FROM ks1.users WHERE user_id=?; [1 bound values] [user_id:'u1']"

/-- The same message with the bracketed count directly after `' ms: '`, the
position `get_log` actually recognizes. -/
def c2MsgFixed : Str :=
  lit "Query too slow, took 45 ms: [1 bound values] SELECT * FROM ks1.users WHERE user_id=?; [user_id:'u1']"

/-- A query whose parameter value is followed by a comma before any space. -/
def c3Query : Str := lit "SELECT * FROM t WHERE a=1,2 ;"

/-- The pattern naming parameter `a` for `c3Query`. -/
def c3Pattern : QueryPatternCfg := { start := lit "SELECT * FROM t", parameters := [lit "a"] }

/-- Config for the dispatch claims. -/
def c4Config : Config := {}

/-- A record whose query uses the mixed-case variant `Select`. -/
def c4SelLog : Log :=
  { duration := lit "9", counts := none, boundValues := none,
    query := lit "Select * FROM ks1.users WHERE user_id=5;", tags := [] }

/-- A record whose query uses the mixed-case variant `Begin Batch`. -/
def c4BatchLog : Log :=
  { duration := lit "9", counts := none, boundValues := none,
    query := lit "Begin Batch INSERT INTO t (a) VALUES (1);", tags := [] }

/-- An all-lowercase UPDATE record for the dispatch witness. -/
def c4UpdLog : Log :=
  { duration := lit "9", counts := none, boundValues := none,
    query := lit "update t set a=1 where b=2;", tags := [] }

/-- Config accepting singleton rollup entries. -/
def c5Config : Config := { minCount := 1 }

/-- Two events whose minutes first occur out of chronological order. -/
def c5Data : List Datum :=
  [{ minute := lit "2020-01-01 10:05", duration := 5, query := lit "Q" },
   { minute := lit "2020-01-01 10:01", duration := 7, query := lit "Q" }]

/-- A single repeated event for the min-count witness. -/
def c6Datum : Datum := { minute := lit "2020-01-01 10:00", duration := 5, query := lit "Q" }

/-- Data containing one entry of count 2. -/
def c6Data : List Datum := [c6Datum, c6Datum]

/-- Config with `min_count = 2`. -/
def c6Config : Config := { minCount := 2 }

/-- Schema owning table `t` both in a keyspace literally named `unknown` and in
`ks2`. -/
def c7SchemaText : Str :=
  lit "CREATE TABLE unknown.t (\nPRIMARY KEY (a)\n)\nCREATE TABLE ks2.t (\nPRIMARY KEY (a)\n)"

/-- Config carrying the parsed `c7SchemaText` and an empty tag mapping. -/
def c7Config : Config :=
  { schema := (schemaProcess c7SchemaText).toOption.getD [], tags := some [] }

/-- A slow-query message naming the ambiguous bare table `t`. -/
def c7Msg : Str :=
  lit "Query too slow, took 10 ms: [1 bound values] SELECT * FROM t WHERE a=?; [a:'1']"

/-- The datum formed from the `c7Msg` event at some minute. -/
def c7Datum : Datum :=
  { minute := lit "2020-01-01 10:00", duration := 10,
    query := lit "SELECT * FROM t WHERE a=?;",
    primaryKey := some (lit "1"), keyspace := some (lit "unknown"),
    columnFamily := some (lit "t") }

/-- A DELETE record carrying a bound-values section. -/
def c9Log : Log :=
  { duration := lit "9", counts := some (lit "[1 bound values]"),
    boundValues := some (lit "[user_id:'u1']"),
    query := lit "DELETE FROM ks1.users WHERE user_id=?;", tags := [] }

/-- Config for the DELETE claim witness (schema present, so bound values could
in principle resolve a key). -/
def c9Config : Config := { schema := (schemaProcess c2SchemaText).toOption.getD [] }


/-- Schema owning table `t` in two ordinary keyspaces `ks1` and `ks2`. -/
def c7AmbSchemaText : Str :=
  lit "CREATE TABLE ks1.t (\nPRIMARY KEY (a)\n)\nCREATE TABLE ks2.t (\nPRIMARY KEY (a)\n)"

/-- Config carrying the parsed `c7AmbSchemaText` and an empty tag mapping. -/
def c7AmbConfig : Config :=
  { schema := (schemaProcess c7AmbSchemaText).toOption.getD [], tags := some [] }

/-! ### Dictionary lemmas -/

set_option linter.unusedSectionVars false

section DictLemmas

variable {κ β : Type} [DecidableEq κ]

theorem dictGet_eq_none_iff (m : List (κ × β)) (k : κ) :
    dictGet m k = none ↔ k ∉ dictKeys m := by
  induction m with
  | nil => simp [dictGet, dictKeys]
  | cons p rest ih =>
    obtain ⟨a, b⟩ := p
    simp only [dictKeys, List.map_cons, List.mem_cons]
    by_cases h : a = k
    · subst h
      simp [dictGet]
    · simp only [dictGet, if_neg h]
      rw [ih]
      constructor
      · intro hn hor
        rcases hor with h1 | h2
        · exact h h1.symm
        · exact hn h2
      · intro hn h2
        exact hn (Or.inr h2)

theorem dictGet_mem {m : List (κ × β)} {k : κ} {v : β} (h : dictGet m k = some v) :
    (k, v) ∈ m := by
  induction m with
  | nil => simp [dictGet] at h
  | cons p rest ih =>
    obtain ⟨a, b⟩ := p
    by_cases hk : a = k
    · subst hk
      simp [dictGet] at h
      subst h
      exact List.mem_cons_self _ _
    · simp only [dictGet, if_neg hk] at h
      exact List.mem_cons_of_mem _ (ih h)

theorem mem_dictGet {m : List (κ × β)} {k : κ} {v : β} (hm : (k, v) ∈ m)
    (hn : (dictKeys m).Nodup) : dictGet m k = some v := by
  induction m with
  | nil => simp at hm
  | cons p rest ih =>
    obtain ⟨a, b⟩ := p
    simp only [dictKeys, List.map_cons, List.nodup_cons] at hn
    rcases List.mem_cons.mp hm with h | h
    · rw [Prod.mk.injEq] at h
      simp [dictGet, h.1.symm, h.2]
    · have hk : a ≠ k := by
        intro he
        subst he
        exact hn.1 (by simpa [dictKeys] using List.mem_map_of_mem Prod.fst h)
      simp only [dictGet, if_neg hk]
      exact ih h hn.2

theorem dictGet_append (m l : List (κ × β)) (k : κ) :
    dictGet (m ++ l) k =
      (match dictGet m k with
       | some v => some v
       | none => dictGet l k) := by
  induction m with
  | nil => simp [dictGet]
  | cons p rest ih =>
    obtain ⟨a, b⟩ := p
    by_cases h : a = k
    · simp [dictGet, h]
    · simp [dictGet, h, ih]

theorem dictGet_dictSetIn_self (m : List (κ × β)) (k : κ) (v : β)
    (h : dictHas m k = true) : dictGet (dictSetIn m k v) k = some v := by
  induction m with
  | nil => simp [dictHas, dictGet] at h
  | cons p rest ih =>
    obtain ⟨a, b⟩ := p
    by_cases hk : a = k
    · simp [dictSetIn, hk, dictGet]
    · simp only [dictSetIn, if_neg hk, dictGet, if_neg hk]
      exact ih (by simpa [dictHas, dictGet, hk] using h)

theorem dictGet_dictSetIn_ne (m : List (κ × β)) {k k' : κ} (v : β) (h : k' ≠ k) :
    dictGet (dictSetIn m k v) k' = dictGet m k' := by
  induction m with
  | nil => simp [dictSetIn]
  | cons p rest ih =>
    obtain ⟨a, b⟩ := p
    by_cases hk : a = k
    · have ha : ¬ k = k' := fun he => h he.symm
      have ha' : ¬ a = k' := fun he => h (hk.symm.trans he).symm
      simp only [dictSetIn, if_pos hk, dictGet, if_neg ha, if_neg ha']
      exact ih
    · simp only [dictSetIn, if_neg hk, dictGet]
      by_cases hk' : a = k'
      · rw [if_pos hk', if_pos hk']
      · rw [if_neg hk', if_neg hk']
        exact ih

theorem dictGet_dictSet_self (m : List (κ × β)) (k : κ) (v : β) :
    dictGet (dictSet m k v) k = some v := by
  unfold dictSet
  by_cases h : dictHas m k = true
  · rw [if_pos h]
    exact dictGet_dictSetIn_self m k v h
  · rw [if_neg h, dictGet_append]
    have hnone : dictGet m k = none := by
      cases hg : dictGet m k with
      | none => rfl
      | some w => exact absurd (by simp [dictHas, hg]) h
    simp [hnone, dictGet]

theorem dictGet_dictSet_ne (m : List (κ × β)) {k k' : κ} (v : β) (h : k' ≠ k) :
    dictGet (dictSet m k v) k' = dictGet m k' := by
  unfold dictSet
  by_cases hh : dictHas m k = true
  · rw [if_pos hh]
    exact dictGet_dictSetIn_ne m v h
  · rw [if_neg hh, dictGet_append]
    have ha : ¬ k = k' := fun he => h he.symm
    cases hg : dictGet m k' with
    | some w => simp
    | none => simp [dictGet, ha]

theorem dictGet_dictMap_self (m : List (κ × β)) (k : κ) (f : β → β) :
    dictGet (dictMap m k f) k = (dictGet m k).map f := by
  induction m with
  | nil => simp [dictMap, dictGet]
  | cons p rest ih =>
    obtain ⟨a, b⟩ := p
    by_cases hk : a = k
    · simp only [dictMap, if_pos hk, dictGet, if_pos hk]
      rfl
    · simp only [dictMap, if_neg hk, dictGet, if_neg hk]
      exact ih

theorem dictGet_dictMap_ne (m : List (κ × β)) {k k' : κ} (f : β → β) (h : k' ≠ k) :
    dictGet (dictMap m k f) k' = dictGet m k' := by
  induction m with
  | nil => simp [dictMap, dictGet]
  | cons p rest ih =>
    obtain ⟨a, b⟩ := p
    by_cases hk : a = k
    · have ha' : ¬ a = k' := fun he => h (hk.symm.trans he).symm
      simp only [dictMap, if_pos hk, dictGet, if_neg ha']
      exact ih
    · simp only [dictMap, if_neg hk, dictGet]
      by_cases hk' : a = k'
      · rw [if_pos hk', if_pos hk']
      · rw [if_neg hk', if_neg hk']
        exact ih

theorem dictKeys_dictMap (m : List (κ × β)) (k : κ) (f : β → β) :
    dictKeys (dictMap m k f) = dictKeys m := by
  induction m with
  | nil => rfl
  | cons p rest ih =>
    obtain ⟨a, b⟩ := p
    by_cases hk : a = k
    · simp only [dictMap, if_pos hk, dictKeys, List.map_cons] at ih ⊢
      rw [ih]
    · simp only [dictMap, if_neg hk, dictKeys, List.map_cons] at ih ⊢
      rw [ih]

theorem dictKeys_append (m l : List (κ × β)) :
    dictKeys (m ++ l) = dictKeys m ++ dictKeys l := by
  simp [dictKeys]

theorem mem_dictMap {m : List (κ × β)} {k : κ} {f : β → β} {p : κ × β}
    (h : p ∈ dictMap m k f) : ∃ q ∈ m, p = q ∨ (q.1 = k ∧ p = (q.1, f q.2)) := by
  induction m with
  | nil => simp [dictMap] at h
  | cons q rest ih =>
    obtain ⟨a, b⟩ := q
    by_cases hk : a = k
    · simp only [dictMap, if_pos hk] at h
      rcases List.mem_cons.mp h with h | h
      · exact ⟨(a, b), List.mem_cons_self _ _, Or.inr ⟨hk, h⟩⟩
      · obtain ⟨q, hq, hpq⟩ := ih h
        exact ⟨q, List.mem_cons_of_mem _ hq, hpq⟩
    · simp only [dictMap, if_neg hk] at h
      rcases List.mem_cons.mp h with h | h
      · exact ⟨(a, b), List.mem_cons_self _ _, Or.inl h⟩
      · obtain ⟨q, hq, hpq⟩ := ih h
        exact ⟨q, List.mem_cons_of_mem _ hq, hpq⟩

end DictLemmas

/-! ### Bump and fold lemmas -/

theorem dictGet_bump_self {γ : Type} (m : List (Str × Agg γ)) (k : Str) (g : γ) (dur : Int) :
    dictGet (bump m k g dur) k =
      some (match dictGet m k with
            | some e => ⟨e.count + 1, e.duration + dur, e.group⟩
            | none => ⟨1, dur, g⟩) := by
  unfold bump
  by_cases h : dictHas m k = true
  · rw [if_pos h, dictGet_dictMap_self]
    cases hg : dictGet m k with
    | none => exact absurd h (by simp [dictHas, hg])
    | some e => simp
  · rw [if_neg h]
    have hnone : dictGet m k = none := by
      cases hg : dictGet m k with
      | none => rfl
      | some w => exact absurd (by simp [dictHas, hg]) h
    rw [dictGet_dictMap_self, dictGet_append, hnone]
    simp [dictGet, hnone]

theorem dictGet_bump_ne {γ : Type} (m : List (Str × Agg γ)) {k k' : Str} (g : γ)
    (dur : Int) (h : k' ≠ k) : dictGet (bump m k g dur) k' = dictGet m k' := by
  unfold bump
  by_cases hh : dictHas m k = true
  · rw [if_pos hh, dictGet_dictMap_ne _ _ h]
  · rw [if_neg hh, dictGet_dictMap_ne _ _ h, dictGet_append]
    have ha : ¬ k = k' := fun he => h he.symm
    cases hg : dictGet m k' with
    | some w => simp
    | none => simp [dictGet, ha]

theorem dictKeys_bump {γ : Type} (m : List (Str × Agg γ)) (k : Str) (g : γ) (dur : Int) :
    dictKeys (bump m k g dur) =
      if dictHas m k then dictKeys m else dictKeys m ++ [k] := by
  unfold bump
  by_cases h : dictHas m k = true
  · rw [if_pos h, if_pos h, dictKeys_dictMap]
  · rw [if_neg h, if_neg h, dictKeys_dictMap, dictKeys_append]
    rfl

theorem nodup_dictKeys_bump {γ : Type} {m : List (Str × Agg γ)} (k : Str) (g : γ)
    (dur : Int) (hn : (dictKeys m).Nodup) : (dictKeys (bump m k g dur)).Nodup := by
  rw [dictKeys_bump]
  by_cases h : dictHas m k = true
  · simpa [h] using hn
  · have hk : k ∉ dictKeys m := by
      rw [← dictGet_eq_none_iff]
      cases hg : dictGet m k with
      | none => rfl
      | some w => exact absurd (by simp [dictHas, hg]) h
    rw [if_neg h, List.nodup_append]
    refine ⟨hn, List.nodup_singleton k, ?_⟩
    intro a ha hb
    simp at hb
    subst hb
    exact hk ha

theorem mem_bump {γ : Type} {m : List (Str × Agg γ)} {k : Str} {g : γ} {dur : Int}
    {p : Str × Agg γ} (h : p ∈ bump m k g dur) :
    (∃ q ∈ m, p.1 = q.1 ∧ p.2.group = q.2.group) ∨ (p.1 = k ∧ p.2.group = g) := by
  unfold bump at h
  by_cases hh : dictHas m k = true
  · rw [if_pos hh] at h
    obtain ⟨q, hq, hcase⟩ := mem_dictMap h
    rcases hcase with heq | ⟨hk, heq⟩
    · exact Or.inl ⟨q, hq, by rw [heq], by rw [heq]⟩
    · exact Or.inl ⟨q, hq, by rw [heq], by rw [heq]⟩
  · rw [if_neg hh] at h
    obtain ⟨q, hq, hcase⟩ := mem_dictMap h
    rcases List.mem_append.mp hq with hq' | hq'
    · rcases hcase with heq | ⟨hk, heq⟩
      · exact Or.inl ⟨q, hq', by rw [heq], by rw [heq]⟩
      · exact Or.inl ⟨q, hq', by rw [heq], by rw [heq]⟩
    · have hq2 : q = (k, ⟨0, 0, g⟩) := by simpa using hq'
      rcases hcase with heq | ⟨hk, heq⟩
      · exact Or.inr ⟨by rw [heq, hq2], by rw [heq, hq2]⟩
      · exact Or.inr ⟨by rw [heq, hq2], by rw [heq, hq2]⟩

section FoldLemmas

variable {γ : Type} (guard : Datum → Prop) [DecidablePred guard]
variable (key : Datum → Str) (grp : Datum → γ)

theorem rollupFold_group (data : List Datum) (init : List (Str × Agg γ)) (k : Str) :
    (dictGet (rollupFold guard key grp data init) k).map (fun e => e.group) =
      (match dictGet init k with
       | some e => some e.group
       | none => (data.find? (fun d => decide (guard d) && (key d == k))).map grp) := by
  induction data generalizing init with
  | nil =>
    cases hg : dictGet init k <;> simp [rollupFold, hg]
  | cons d ds ih =>
    have hstep : rollupFold guard key grp (d :: ds) init =
        rollupFold guard key grp ds (rollupStep guard key grp init d) := rfl
    rw [hstep, ih]
    by_cases hg : guard d
    · by_cases hk : key d = k
      · subst hk
        rw [show rollupStep guard key grp init d = bump init (key d) (grp d) d.duration
              from if_pos hg]
        rw [dictGet_bump_self]
        have hfind : List.find? (fun x => decide (guard x) && (key x == key d)) (d :: ds) =
            some d := by
          rw [List.find?_cons]
          simp [hg]
        rw [hfind]
        cases hi : dictGet init (key d) with
        | none => simp
        | some e => simp
      · rw [show rollupStep guard key grp init d = bump init (key d) (grp d) d.duration
              from if_pos hg]
        rw [dictGet_bump_ne _ _ _ (fun he => hk he.symm)]
        have hfind : List.find? (fun x => decide (guard x) && (key x == k)) (d :: ds) =
            List.find? (fun x => decide (guard x) && (key x == k)) ds := by
          rw [List.find?_cons]
          have : (key d == k) = false := by
            simp [hk]
          simp [this]
        rw [hfind]
    · rw [show rollupStep guard key grp init d = init from if_neg hg]
      have hfind : List.find? (fun x => decide (guard x) && (key x == k)) (d :: ds) =
          List.find? (fun x => decide (guard x) && (key x == k)) ds := by
        rw [List.find?_cons]
        simp [hg]
      rw [hfind]

theorem nodup_rollupFold (data : List Datum) (init : List (Str × Agg γ))
    (hn : (dictKeys init).Nodup) :
    (dictKeys (rollupFold guard key grp data init)).Nodup := by
  induction data generalizing init with
  | nil => exact hn
  | cons d ds ih =>
    have hstep : rollupFold guard key grp (d :: ds) init =
        rollupFold guard key grp ds (rollupStep guard key grp init d) := rfl
    rw [hstep]
    refine ih _ ?_
    unfold rollupStep
    by_cases hg : guard d
    · rw [if_pos hg]
      exact nodup_dictKeys_bump _ _ _ hn
    · rw [if_neg hg]
      exact hn

theorem rollupFold_groupProp (P : γ → Prop) :
    ∀ (data : List Datum) (init : List (Str × Agg γ)),
      (∀ d ∈ data, guard d → P (grp d)) →
      (∀ p ∈ init, P p.2.group) →
      ∀ p ∈ rollupFold guard key grp data init, P p.2.group := by
  intro data
  induction data with
  | nil => exact fun init _ hinit => hinit
  | cons d ds ih =>
    intro init hd hinit
    have hstep : rollupFold guard key grp (d :: ds) init =
        rollupFold guard key grp ds (rollupStep guard key grp init d) := rfl
    rw [hstep]
    refine ih _ (fun x hx hgx => hd x (List.mem_cons_of_mem _ hx) hgx) ?_
    intro p hp
    unfold rollupStep at hp
    by_cases hg : guard d
    · rw [if_pos hg] at hp
      rcases mem_bump hp with ⟨q, hq, _, hgrp⟩ | ⟨_, hgrp⟩
      · rw [hgrp]
        exact hinit q hq
      · rw [hgrp]
        exact hd d (List.mem_cons_self _ _) hg
    · rw [if_neg hg] at hp
      exact hinit p hp

theorem rollupFold_keyFn (keyFn : γ → Str) (hkg : ∀ d, keyFn (grp d) = key d)
    (data : List Datum) (init : List (Str × Agg γ))
    (hinit : ∀ p ∈ init, keyFn p.2.group = p.1) :
    ∀ p ∈ rollupFold guard key grp data init, keyFn p.2.group = p.1 := by
  induction data generalizing init with
  | nil => exact hinit
  | cons d ds ih =>
    have hstep : rollupFold guard key grp (d :: ds) init =
        rollupFold guard key grp ds (rollupStep guard key grp init d) := rfl
    rw [hstep]
    refine ih _ ?_
    intro p hp
    unfold rollupStep at hp
    by_cases hg : guard d
    · rw [if_pos hg] at hp
      rcases mem_bump hp with ⟨q, hq, hfst, hgrp⟩ | ⟨hfst, hgrp⟩
      · rw [hgrp, hfst]
        exact hinit q hq
      · rw [hgrp, hfst, hkg]
    · rw [if_neg hg] at hp
      exact hinit p hp

end FoldLemmas

/-! ### Nested (volume-top) fold lemmas -/

theorem dictGet_bumpNested_self {γ : Type} (mm : List (Str × List (Str × Agg γ)))
    (minute k : Str) (g : γ) (dur : Int) :
    dictGet (bumpNested mm minute k g dur) minute =
      some (bump ((dictGet mm minute).getD []) k g dur) := by
  unfold bumpNested
  by_cases h : dictHas mm minute = true
  · rw [if_pos h, dictGet_dictMap_self]
    cases hg : dictGet mm minute with
    | none => exact absurd h (by simp [dictHas, hg])
    | some inner => simp
  · have hnone : dictGet mm minute = none := by
      cases hg : dictGet mm minute with
      | none => rfl
      | some w => exact absurd (by simp [dictHas, hg]) h
    rw [if_neg h, dictGet_dictMap_self, dictGet_append, hnone]
    simp [dictGet, hnone]

theorem dictGet_bumpNested_ne {γ : Type} (mm : List (Str × List (Str × Agg γ)))
    {minute m' k : Str} (g : γ) (dur : Int) (h : m' ≠ minute) :
    dictGet (bumpNested mm minute k g dur) m' = dictGet mm m' := by
  unfold bumpNested
  by_cases hh : dictHas mm minute = true
  · rw [if_pos hh, dictGet_dictMap_ne _ _ h]
  · rw [if_neg hh, dictGet_dictMap_ne _ _ h, dictGet_append]
    have ha : ¬ minute = m' := fun he => h he.symm
    cases hg : dictGet mm m' with
    | some w => simp
    | none => simp [dictGet, ha]

theorem dictKeys_bumpNested {γ : Type} (mm : List (Str × List (Str × Agg γ)))
    (minute k : Str) (g : γ) (dur : Int) :
    dictKeys (bumpNested mm minute k g dur) =
      if dictHas mm minute then dictKeys mm else dictKeys mm ++ [minute] := by
  unfold bumpNested
  by_cases h : dictHas mm minute = true
  · rw [if_pos h, if_pos h, dictKeys_dictMap]
  · rw [if_neg h, if_neg h, dictKeys_dictMap, dictKeys_append]
    rfl

theorem nodup_dictKeys_bumpNested {γ : Type} {mm : List (Str × List (Str × Agg γ))}
    (minute k : Str) (g : γ) (dur : Int) (hn : (dictKeys mm).Nodup) :
    (dictKeys (bumpNested mm minute k g dur)).Nodup := by
  rw [dictKeys_bumpNested]
  by_cases h : dictHas mm minute = true
  · simpa [h] using hn
  · have hk : minute ∉ dictKeys mm := by
      rw [← dictGet_eq_none_iff]
      cases hg : dictGet mm minute with
      | none => rfl
      | some w => exact absurd (by simp [dictHas, hg]) h
    rw [if_neg h, List.nodup_append]
    refine ⟨hn, List.nodup_singleton minute, ?_⟩
    intro a ha hb
    simp at hb
    subst hb
    exact hk ha

theorem bumpFold_eq_rollupFold (l : List Datum) (init : List (Str × Agg VTGrp)) :
    bumpFold l init = rollupFold (fun _ => True) qpkKey vtGrp l init := by
  induction l generalizing init with
  | nil => rfl
  | cons d ds ih =>
    have h1 : bumpFold (d :: ds) init =
        bumpFold ds (bump init (qpkKey d) (vtGrp d) d.duration) := rfl
    have h2 : rollupFold (fun _ => True) qpkKey vtGrp (d :: ds) init =
        rollupFold (fun _ => True) qpkKey vtGrp ds
          (rollupStep (fun _ => True) qpkKey vtGrp init d) := rfl
    rw [h1, h2, ih]
    congr 1

theorem nestedFold_lookup (data : List Datum)
    (init : List (Str × List (Str × Agg VTGrp))) (m : Str) :
    dictGet (nestedFold data init) m =
      if dictHas init m || data.any (fun d => d.minute == m)
      then some (bumpFold (data.filter (fun d => d.minute == m)) ((dictGet init m).getD []))
      else none := by
  induction data generalizing init with
  | nil =>
    by_cases h : dictHas init m = true
    · simp only [nestedFold, List.foldl_nil, List.any_nil, Bool.or_false, h, if_true]
      cases hg : dictGet init m with
      | none => exact absurd h (by simp [dictHas, hg])
      | some inner => simp [bumpFold]
    · have hnone : dictGet init m = none := by
        cases hg : dictGet init m with
        | none => rfl
        | some w => exact absurd (by simp [dictHas, hg]) h
      simp only [nestedFold, List.foldl_nil, List.any_nil, Bool.or_false]
      rw [if_neg (by simp [h])]
      exact hnone
  | cons d ds ih =>
    have hstep : nestedFold (d :: ds) init = nestedFold ds (nestedStep init d) := rfl
    rw [hstep, ih]
    by_cases hm : d.minute = m
    · subst hm
      have hself : dictGet (nestedStep init d) d.minute =
          some (bump ((dictGet init d.minute).getD []) (qpkKey d) (vtGrp d) d.duration) :=
        dictGet_bumpNested_self ..
      have hhas : dictHas (nestedStep init d) d.minute = true := by
        simp [dictHas, hself]
      have hany : (List.any (d :: ds) fun x => x.minute == d.minute) = true := by
        simp [List.any_cons]
      have hfilter : List.filter (fun x => x.minute == d.minute) (d :: ds) =
          d :: List.filter (fun x => x.minute == d.minute) ds := by
        rw [List.filter_cons_of_pos]
        simp
      rw [hhas, hany, hself, hfilter]
      simp only [Bool.true_or, Bool.or_true, if_true, Option.getD_some]
      rfl
    · have hne : dictGet (nestedStep init d) m = dictGet init m :=
        dictGet_bumpNested_ne _ _ _ (fun he => hm he.symm)
    
      have hhas : dictHas (nestedStep init d) m = dictHas init m := by
        simp [dictHas, hne]
      have hbeq : (d.minute == m) = false := by simp [hm]
      have hany : (List.any (d :: ds) fun x => x.minute == m) =
          (List.any ds fun x => x.minute == m) := by
        simp [List.any_cons, hbeq]
      have hfilter : List.filter (fun x => x.minute == m) (d :: ds) =
          List.filter (fun x => x.minute == m) ds := by
        rw [List.filter_cons_of_neg]
        simp [hbeq]
      rw [hhas, hany, hne, hfilter]

theorem nodup_nestedFold (data : List Datum)
    (init : List (Str × List (Str × Agg VTGrp))) (hn : (dictKeys init).Nodup) :
    (dictKeys (nestedFold data init)).Nodup := by
  induction data generalizing init with
  | nil => exact hn
  | cons d ds ih =>
    have hstep : nestedFold (d :: ds) init = nestedFold ds (nestedStep init d) := rfl
    rw [hstep]
    exact ih _ (nodup_dictKeys_bumpNested _ _ _ _ hn)

theorem find?_filter_fuse {α : Type} (l : List α) (q p : α → Bool) :
    (l.filter q).find? p = l.find? (fun a => q a && p a) := by
  induction l with
  | nil => rfl
  | cons a rest ih =>
    by_cases hq : q a = true
    · rw [List.filter_cons_of_pos hq]
      by_cases hp : p a = true
      · rw [List.find?_cons_of_pos _ hp, List.find?_cons_of_pos _ (by simp [hq, hp])]
      · have hp' : p a = false := by simpa using hp
        rw [List.find?_cons_of_neg _ (by simp [hp']),
          List.find?_cons_of_neg _ (by simp [hp']), ih]
    · have hq' : q a = false := by simpa using hq
      rw [List.filter_cons_of_neg (by simp [hq']), List.find?_cons_of_neg _ (by simp [hq']),
        ih]

/-! ### Projections of the analyze fold, filter/average/sort lemmas -/

theorem analyzeFold_proj :
    ∀ (data : List Datum) (a : AMaps),
      (List.foldl analyzeStep a data).query =
        rollupFold (fun _ => True) qKey qGrp data a.query ∧
      (List.foldl analyzeStep a data).queryPk =
        rollupFold (fun d => pkOf d ≠ []) qpkKey qpGrp data a.queryPk ∧
      (List.foldl analyzeStep a data).primaryKey =
        rollupFold (fun d => pkOf d ≠ [] ∧ ksOf d ≠ [] ∧ cfOf d ≠ [])
          kcpKey pkGrp data a.primaryKey ∧
      (List.foldl analyzeStep a data).volume =
        rollupFold (fun _ => True) (fun d => d.minute) vGrp data a.volume ∧
      (List.foldl analyzeStep a data).volumeTop = nestedFold data a.volumeTop := by
  intro data
  induction data with
  | nil => exact fun a => ⟨rfl, rfl, rfl, rfl, rfl⟩
  | cons d ds ih =>
    intro a
    obtain ⟨h1, h2, h3, h4, h5⟩ := ih (analyzeStep a d)
    rw [List.foldl_cons]
    refine ⟨?_, ?_, ?_, ?_, ?_⟩
    · rw [h1]
      rw [show rollupFold (fun _ => True) qKey qGrp (d :: ds) a.query =
            rollupFold (fun _ => True) qKey qGrp ds
              (rollupStep (fun _ => True) qKey qGrp a.query d) from rfl]
      congr 1
    · rw [h2]
      rw [show rollupFold (fun d => pkOf d ≠ []) qpkKey qpGrp (d :: ds) a.queryPk =
            rollupFold (fun d => pkOf d ≠ []) qpkKey qpGrp ds
              (rollupStep (fun d => pkOf d ≠ []) qpkKey qpGrp a.queryPk d) from rfl]
      congr 1
    · rw [h3]
      rw [show rollupFold (fun d => pkOf d ≠ [] ∧ ksOf d ≠ [] ∧ cfOf d ≠ [])
              kcpKey pkGrp (d :: ds) a.primaryKey =
            rollupFold (fun d => pkOf d ≠ [] ∧ ksOf d ≠ [] ∧ cfOf d ≠ []) kcpKey pkGrp ds
              (rollupStep (fun d => pkOf d ≠ [] ∧ ksOf d ≠ [] ∧ cfOf d ≠ [])
                kcpKey pkGrp a.primaryKey d) from rfl]
      congr 1
    · rw [h4]
      rw [show rollupFold (fun _ => True) (fun d => d.minute) vGrp (d :: ds) a.volume =
            rollupFold (fun _ => True) (fun d => d.minute) vGrp ds
              (rollupStep (fun _ => True) (fun d => d.minute) vGrp a.volume d) from rfl]
      congr 1
    · rw [h5]
      rw [show nestedFold (d :: ds) a.volumeTop =
            nestedFold ds (nestedStep a.volumeTop d) from rfl]
      congr 1

theorem dictGet_mapVals {κ β β' : Type} [DecidableEq κ] (f : β → β')
    (m : List (κ × β)) (k : κ) :
    dictGet (m.map (fun p => (p.1, f p.2))) k = (dictGet m k).map f := by
  induction m with
  | nil => rfl
  | cons p rest ih =>
    obtain ⟨a, b⟩ := p
    by_cases hk : a = k
    · simp [dictGet, hk]
    · simpa [dictGet, hk] using ih

theorem filterMinCount_lookup {γ : Type} (mc : Nat) (m : List (Str × Agg γ)) (k : Str)
    (hn : (dictKeys m).Nodup) :
    dictGet (filterMinCount mc m) k =
      (match dictGet m k with
       | some e => if mc ≤ e.count then some e else none
       | none => none) := by
  induction m with
  | nil => rfl
  | cons p rest ih =>
    obtain ⟨a, b⟩ := p
    simp only [dictKeys, List.map_cons, List.nodup_cons] at hn
    by_cases hk : a = k
    · subst hk
      by_cases hc : mc ≤ b.count
      · rw [filterMinCount, List.filter_cons_of_pos (by simp [hc])]
        simp [dictGet, hc]
      · rw [filterMinCount, List.filter_cons_of_neg (by simp [hc])]
        have hnone : dictGet (filterMinCount mc rest) a = none := by
          rw [dictGet_eq_none_iff]
          intro hmem
          apply hn.1
          simp only [filterMinCount, dictKeys, List.mem_map] at hmem
          obtain ⟨q, hq, hqx⟩ := hmem
          simp only [dictKeys, List.mem_map]
          exact ⟨q, List.mem_of_mem_filter hq, hqx⟩
        rw [show filterMinCount mc rest =
              List.filter (fun p => decide (mc ≤ p.2.count)) rest from rfl] at hnone
        rw [hnone]
        simp [dictGet, hc]
    · have htail : dictGet (filterMinCount mc rest) k =
          (match dictGet rest k with
           | some e => if mc ≤ e.count then some e else none
           | none => none) := ih hn.2
      by_cases hc : mc ≤ b.count
      · rw [filterMinCount, List.filter_cons_of_pos (by simp [hc])]
        simp only [dictGet, if_neg hk]
        exact htail
      · rw [filterMinCount, List.filter_cons_of_neg (by simp [hc])]
        simp only [dictGet, if_neg hk]
        exact htail

theorem mem_filterMinCount {γ : Type} {mc : Nat} {m : List (Str × Agg γ)}
    {p : Str × Agg γ} : p ∈ filterMinCount mc m ↔ p ∈ m ∧ mc ≤ p.2.count := by
  simp [filterMinCount, List.mem_filter]

theorem nodup_filterMinCount {γ : Type} (mc : Nat) {m : List (Str × Agg γ)}
    (hn : (dictKeys m).Nodup) : (dictKeys (filterMinCount mc m)).Nodup := by
  have hsub : dictKeys (filterMinCount mc m) |>.Sublist (dictKeys m) :=
    (List.filter_sublist m).map Prod.fst
  exact hn.sublist hsub

theorem dictGet_avgMap {γ : Type} (m : List (Str × Agg γ)) (k : Str) :
    dictGet (avgMap m) k = (dictGet m k).map avgEntry :=
  dictGet_mapVals avgEntry m k

theorem mem_dictVals {κ β : Type} {m : List (κ × β)} {v : β} :
    v ∈ dictVals m ↔ ∃ k, (k, v) ∈ m := by
  constructor
  · intro h
    simp only [dictVals, List.mem_map] at h
    obtain ⟨p, hp, hv⟩ := h
    exact ⟨p.1, by rwa [show (p.1, v) = p from by rw [← hv]]⟩
  · intro ⟨k, hk⟩
    simp only [dictVals, List.mem_map]
    exact ⟨(k, v), hk, rfl⟩

theorem mem_insertDesc {γ : Type} (k : RAgg γ → Int) (x a : RAgg γ) (l : List (RAgg γ)) :
    a ∈ insertDesc k x l ↔ a = x ∨ a ∈ l := by
  induction l with
  | nil => simp [insertDesc]
  | cons y ys ih =>
    by_cases h : k x < k y
    · simp only [insertDesc, if_pos h, List.mem_cons, ih]
      tauto
    · simp only [insertDesc, if_neg h, List.mem_cons]

theorem mem_sortDesc {γ : Type} (config : Config) (l : List (RAgg γ)) (x : RAgg γ) :
    x ∈ sortDesc config l ↔ x ∈ l := by
  induction l with
  | nil => simp [sortDesc]
  | cons y ys ih =>
    show x ∈ insertDesc (orderKey config) y (sortDesc config ys) ↔ _
    rw [mem_insertDesc, ih]
    simp

/-! ### Statement dispatch lemmas -/

theorem startsWith_false_head {c p : Char} (s ps : Str) (h : c ≠ p) :
    pyStartsWith (c :: s) (p :: ps) = false := by
  simp [pyStartsWith, h]

theorem startsWith_head {c p : Char} {s ps : Str}
    (h : pyStartsWith (c :: s) (p :: ps) = true) : c = p ∧ pyStartsWith s ps = true := by
  simpa [pyStartsWith, Bool.and_eq_true, decide_eq_true_eq] using h

theorem query_head_of_startsWith {q : Str} {p : Char} {ps : Str}
    (h : pyStartsWith q (p :: ps) = true) : ∃ t, q = p :: t := by
  cases q with
  | nil => simp [pyStartsWith] at h
  | cons c t =>
    obtain ⟨hc, _⟩ := startsWith_head h
    exact ⟨t, by rw [hc]⟩

theorem notSelectHandles_of_head {log : Log} {c : Char} {t : Str} (hq : log.query = c :: t)
    (h1 : c ≠ 'S') (h2 : c ≠ 's') : selectHandles log = false := by
  unfold selectHandles
  rw [hq, show lit "SELECT" = 'S' :: lit "ELECT" from rfl,
      show lit "select" = 's' :: lit "elect" from rfl,
      startsWith_false_head _ _ h1, startsWith_false_head _ _ h2]
  rfl

theorem notBatchHandles_of_head {log : Log} {c : Char} {t : Str} (hq : log.query = c :: t)
    (h1 : c ≠ 'B') (h2 : c ≠ 'b') : batchHandles log = false := by
  unfold batchHandles
  rw [hq, show lit "BEGIN BATCH" = 'B' :: lit "EGIN BATCH" from rfl,
      show lit "begin batch" = 'b' :: lit "egin batch" from rfl,
      startsWith_false_head _ _ h1, startsWith_false_head _ _ h2]
  rfl

theorem notInsertHandles_of_head {log : Log} {c : Char} {t : Str} (hq : log.query = c :: t)
    (h1 : c ≠ 'I') (h2 : c ≠ 'i') : insertHandles log = false := by
  unfold insertHandles
  rw [hq, show lit "INSERT" = 'I' :: lit "NSERT" from rfl,
      show lit "insert" = 'i' :: lit "nsert" from rfl,
      startsWith_false_head _ _ h1, startsWith_false_head _ _ h2]
  rfl

theorem notDeleteHandles_of_head {log : Log} {c : Char} {t : Str} (hq : log.query = c :: t)
    (h1 : c ≠ 'D') (h2 : c ≠ 'd') : deleteHandles log = false := by
  unfold deleteHandles
  rw [hq, show lit "DELETE" = 'D' :: lit "ELETE" from rfl,
      show lit "delete" = 'd' :: lit "elete" from rfl,
      startsWith_false_head _ _ h1, startsWith_false_head _ _ h2]
  rfl

theorem batchHandles_head {log : Log} (h : batchHandles log = true) :
    (∃ t, log.query = 'B' :: t) ∨ (∃ t, log.query = 'b' :: t) := by
  unfold batchHandles at h
  rcases Bool.or_eq_true _ _ ▸ h with h1 | h1
  · exact Or.inl (query_head_of_startsWith
      (show pyStartsWith log.query ('B' :: lit "EGIN BATCH") = true from h1))
  · exact Or.inr (query_head_of_startsWith
      (show pyStartsWith log.query ('b' :: lit "egin batch") = true from h1))

theorem insertHandles_head {log : Log} (h : insertHandles log = true) :
    (∃ t, log.query = 'I' :: t) ∨ (∃ t, log.query = 'i' :: t) := by
  unfold insertHandles at h
  rcases Bool.or_eq_true _ _ ▸ h with h1 | h1
  · exact Or.inl (query_head_of_startsWith
      (show pyStartsWith log.query ('I' :: lit "NSERT") = true from h1))
  · exact Or.inr (query_head_of_startsWith
      (show pyStartsWith log.query ('i' :: lit "nsert") = true from h1))

theorem deleteHandles_head {log : Log} (h : deleteHandles log = true) :
    (∃ t, log.query = 'D' :: t) ∨ (∃ t, log.query = 'd' :: t) := by
  unfold deleteHandles at h
  rcases Bool.or_eq_true _ _ ▸ h with h1 | h1
  · exact Or.inl (query_head_of_startsWith
      (show pyStartsWith log.query ('D' :: lit "ELETE") = true from h1))
  · exact Or.inr (query_head_of_startsWith
      (show pyStartsWith log.query ('d' :: lit "elete") = true from h1))

theorem updateHandles_head {log : Log} (h : updateHandles log = true) :
    (∃ t, log.query = 'U' :: t) ∨ (∃ t, log.query = 'u' :: t) := by
  unfold updateHandles at h
  rcases Bool.or_eq_true _ _ ▸ h with h1 | h1
  · exact Or.inl (query_head_of_startsWith
      (show pyStartsWith log.query ('U' :: lit "PDATE") = true from h1))
  · exact Or.inr (query_head_of_startsWith
      (show pyStartsWith log.query ('u' :: lit "pdate") = true from h1))

theorem selectHandles_not_of_batch {log : Log} (h : batchHandles log = true) :
    selectHandles log = false := by
  rcases batchHandles_head h with ⟨t, hq⟩ | ⟨t, hq⟩
  · exact notSelectHandles_of_head hq (by decide) (by decide)
  · exact notSelectHandles_of_head hq (by decide) (by decide)

theorem earlier_not_of_insert {log : Log} (h : insertHandles log = true) :
    selectHandles log = false ∧ batchHandles log = false := by
  rcases insertHandles_head h with ⟨t, hq⟩ | ⟨t, hq⟩ <;>
    exact ⟨notSelectHandles_of_head hq (by decide) (by decide),
           notBatchHandles_of_head hq (by decide) (by decide)⟩

theorem earlier_not_of_delete {log : Log} (h : deleteHandles log = true) :
    selectHandles log = false ∧ batchHandles log = false ∧ insertHandles log = false := by
  rcases deleteHandles_head h with ⟨t, hq⟩ | ⟨t, hq⟩ <;>
    exact ⟨notSelectHandles_of_head hq (by decide) (by decide),
           notBatchHandles_of_head hq (by decide) (by decide),
           notInsertHandles_of_head hq (by decide) (by decide)⟩

theorem earlier_not_of_update {log : Log} (h : updateHandles log = true) :
    selectHandles log = false ∧ batchHandles log = false ∧ insertHandles log = false ∧
      deleteHandles log = false := by
  rcases updateHandles_head h with ⟨t, hq⟩ | ⟨t, hq⟩ <;>
    exact ⟨notSelectHandles_of_head hq (by decide) (by decide),
           notBatchHandles_of_head hq (by decide) (by decide),
           notInsertHandles_of_head hq (by decide) (by decide),
           notDeleteHandles_of_head hq (by decide) (by decide)⟩

/-- Claim C4 (amended): statement dispatch tries the extractors in the fixed
order SELECT, BATCH, INSERT, DELETE, UPDATE with the first match winning, and
each prefix test accepts exactly the all-uppercase and the all-lowercase
spelling of its keyword; a record matching none of those ten exact prefixes is
rejected as unhandled.  (The claim's case-insensitive reading is refuted by
the counterexample: `Select`/`Begin Batch` records are rejected.) -/
theorem c4_dispatch_order (log : Log) (config : Config) :
    (processors.find? (fun p => p.handles log) = none ↔
       selectHandles log = false ∧ batchHandles log = false ∧ insertHandles log = false ∧
         deleteHandles log = false ∧ updateHandles log = false) ∧
    (selectHandles log = true → processMessageCore log config = selectProcess log config) ∧
    (batchHandles log = true → processMessageCore log config = batchProcess log config) ∧
    (insertHandles log = true → processMessageCore log config = insertProcess log config) ∧
    (deleteHandles log = true → processMessageCore log config = deleteProcess log config) ∧
    (updateHandles log = true → processMessageCore log config = updateProcess log config) := by
  refine ⟨⟨?_, ?_⟩, ?_, ?_, ?_, ?_, ?_⟩
  · intro h
    have hall := List.find?_eq_none.mp h
    exact ⟨by simpa using hall ⟨selectHandles, selectProcess⟩ (by simp [processors]),
           by simpa using hall ⟨batchHandles, batchProcess⟩ (by simp [processors]),
           by simpa using hall ⟨insertHandles, insertProcess⟩ (by simp [processors]),
           by simpa using hall ⟨deleteHandles, deleteProcess⟩ (by simp [processors]),
           by simpa using hall ⟨updateHandles, updateProcess⟩ (by simp [processors])⟩
  · rintro ⟨h1, h2, h3, h4, h5⟩
    refine List.find?_eq_none.mpr ?_
    intro x hx
    simp only [processors, List.mem_cons, List.not_mem_nil, or_false] at hx
    rcases hx with rfl | rfl | rfl | rfl | rfl <;> simp [h1, h2, h3, h4, h5]
  · intro h
    have hf : processors.find? (fun p => p.handles log) =
        some ⟨selectHandles, selectProcess⟩ := by
      unfold processors
      exact List.find?_cons_of_pos _ h
    unfold processMessageCore
    rw [hf]
  · intro h
    have hs := selectHandles_not_of_batch h
    have hf : processors.find? (fun p => p.handles log) =
        some ⟨batchHandles, batchProcess⟩ := by
      unfold processors
      rw [List.find?_cons_of_neg _ (by simp [hs])]
      exact List.find?_cons_of_pos _ h
    unfold processMessageCore
    rw [hf]
  · intro h
    obtain ⟨hs, hb⟩ := earlier_not_of_insert h
    have hf : processors.find? (fun p => p.handles log) =
        some ⟨insertHandles, insertProcess⟩ := by
      unfold processors
      rw [List.find?_cons_of_neg _ (by simp [hs]), List.find?_cons_of_neg _ (by simp [hb])]
      exact List.find?_cons_of_pos _ h
    unfold processMessageCore
    rw [hf]
  · intro h
    obtain ⟨hs, hb, hi⟩ := earlier_not_of_delete h
    have hf : processors.find? (fun p => p.handles log) =
        some ⟨deleteHandles, deleteProcess⟩ := by
      unfold processors
      rw [List.find?_cons_of_neg _ (by simp [hs]), List.find?_cons_of_neg _ (by simp [hb]),
        List.find?_cons_of_neg _ (by simp [hi])]
      exact List.find?_cons_of_pos _ h
    unfold processMessageCore
    rw [hf]
  · intro h
    obtain ⟨hs, hb, hi, hd⟩ := earlier_not_of_update h
    have hf : processors.find? (fun p => p.handles log) =
        some ⟨updateHandles, updateProcess⟩ := by
      unfold processors
      rw [List.find?_cons_of_neg _ (by simp [hs]), List.find?_cons_of_neg _ (by simp [hb]),
        List.find?_cons_of_neg _ (by simp [hi]), List.find?_cons_of_neg _ (by simp [hd])]
      exact List.find?_cons_of_pos _ h
    unfold processMessageCore
    rw [hf]

/-- Claim C4, counterexample: records whose queries begin with the mixed-case
variants `Select` and `Begin Batch` are rejected as unhandled, so the prefix
tests are not case-insensitive. -/
theorem c4_mixed_case_unhandled :
    processMessageCore c4SelLog c4Config = .error (lit "No processor available") ∧
    processMessageCore c4BatchLog c4Config = .error (lit "No processor available") :=
  ⟨rfl, rfl⟩

/-- Claim C4, witness: an all-lowercase `update` record reaches the UPDATE
extractor through the dispatch chain. -/
theorem c4_dispatch_order_witness :
    processMessageCore c4UpdLog c4Config = updateProcess c4UpdLog c4Config :=
  (c4_dispatch_order c4UpdLog c4Config).2.2.2.2.2 (by decide)

/-- Claim C9: every log record classified as a DELETE statement yields an event
with a null `primary_key`, whatever bound values, schema or configuration are
present (the only failure mode is the duration `int()` conversion). -/
theorem c9_delete_null_primary_key (log : Log) (config : Config)
    (h : deleteHandles log = true) :
    (processMessageCore log config).map (fun e => e.primaryKey) =
      (match pyInt log.duration with
       | some _ => Except.ok none
       | none => Except.error (lit "ValueError")) := by
  obtain ⟨hs, hb, hi⟩ := earlier_not_of_delete h
  have hf : processors.find? (fun p => p.handles log) =
      some ⟨deleteHandles, deleteProcess⟩ := by
    unfold processors
    rw [List.find?_cons_of_neg _ (by simp [hs]), List.find?_cons_of_neg _ (by simp [hb]),
      List.find?_cons_of_neg _ (by simp [hi])]
    exact List.find?_cons_of_pos _ h
  unfold processMessageCore
  rw [hf]
  show (deleteProcess log config).map (fun e => e.primaryKey) = _
  unfold deleteProcess
  cases hd : pyInt log.duration with
  | some d => rfl
  | none => rfl

/-- Claim C9, witness: a concrete DELETE record with a bound-values section
still produces `primary_key = None`. -/
theorem c9_delete_null_primary_key_witness :
    deleteHandles c9Log = true ∧
    (processMessageCore c9Log c9Config).map (fun e => e.primaryKey) = Except.ok none :=
  ⟨by decide, (c9_delete_null_primary_key c9Log c9Config (by decide)).trans (by rfl)⟩

/-! ### Claims C1 and C2 -/

theorem foldl_append_filterMap (bv : List (Str × Str)) (fields : List Str)
    (acc : List Str) :
    fields.foldl
      (fun acc field =>
        match dictGet bv field with
        | some v => acc ++ [v]
        | none => acc) acc = acc ++ fields.filterMap (fun f => dictGet bv f) := by
  induction fields generalizing acc with
  | nil => simp
  | cons f fs ih =>
    rw [List.foldl_cons, List.filterMap_cons]
    cases hg : dictGet bv f with
    | none => simp [ih]
    | some v => simp [ih]

/-- Claim C1 (amended): `_get_primary_key` returns the `-`-joined concatenation
of the bound values of exactly those partition-key fields that have a resolved
bound value, in catalog-declared order with clustering fields excluded; a
partition-key field without a bound value is skipped rather than suppressing
the key, so partial primary keys are emitted. -/
theorem c1_primary_key_join (config : Config) (bv : List (Str × Str)) (ks cf : Str) :
    getPrimaryKey config bv ks cf = claimPrimaryKey config bv ks cf := by
  unfold getPrimaryKey claimPrimaryKey lookupKeyMeta
  split
  · rfl
  · split
    · rename_i heq2
      rw [heq2]
    · rename_i heq2
      rw [heq2]
    · rename_i meta heq2
      rw [heq2, foldl_append_filterMap bv meta.primaryKey []]
      rfl

/-- Claim C1, counterexample: with composite partition key `(a, b)` and bound
values covering only `a`, the SELECT event still carries the partial
`primary_key = '1'` even though field `b` has no resolved bound value. -/
theorem c1_partial_primary_key :
    (selectProcess c1Log c1Config).map (fun e => e.primaryKey) =
      Except.ok (some (lit "1")) ∧
    lookupKeyMeta c1Config.schema (lit "ks") (lit "t") =
      some ⟨[lit "a", lit "b"], [lit "c"]⟩ ∧
    dictGet (getBoundValues (lit "[a:'1']")) (lit "b") = none :=
  ⟨rfl, rfl, rfl⟩

/-- Claim C2, counterexample: the exact message quoted by the claim places the
bracketed bound-value count after the query, where `get_log` does not
recognize it, so the resulting event has `primary_key = None` instead of the
claimed `'u1'` (the other claimed fields do hold). -/
theorem c2_message_shape_counterexample :
    processMessage c2MsgSpec [] c2Config =
      Except.ok
        { type := lit "SELECT", duration := 45,
          query := lit "SELECT * FROM ks1.users WHERE user_id=?; [1 bound values] [user_id:'u1']",
          boundValues := [], keyspace := some (lit "ks1"),
          columnFamily := some (lit "users"), primaryKey := none } :=
  rfl

/-- Claim C2 (amended): with the bracketed bound-value count directly after
`' ms: '` — the position `get_log` recognizes — the message parses end-to-end
to a SELECT event with duration 45, keyspace `ks1`, table `users` and
`primary_key 'u1'`. -/
theorem c2_end_to_end :
    processMessage c2MsgFixed [] c2Config =
      Except.ok
        { type := lit "SELECT", duration := 45,
          query := lit "SELECT * FROM ks1.users WHERE user_id=?;",
          boundValues := [(lit "user_id", lit "u1")], keyspace := some (lit "ks1"),
          columnFamily := some (lit "users"), primaryKey := some (lit "u1") } :=
  rfl

/-! ### Claim C3 -/

theorem contains_false_iff_findSub (temp : Str) (c : Char) :
    temp.contains c = false ↔ findSub temp [c] = none := by
  induction temp with
  | nil => simp [findSub, pyStartsWith]
  | cons a rest ih =>
    by_cases h : a = c
    · subst h
      simp [findSub, pyStartsWith, List.contains]
    · have hsw : pyStartsWith (a :: rest) [c] = false := by
        simp [pyStartsWith, h]
      simp only [findSub, hsw, Bool.false_eq_true, if_false, List.contains_cons]
      have hca : (c == a) = false := by
        simp only [beq_eq_false_iff_ne, ne_eq]
        exact fun he => h he.symm
      rw [hca]
      simp only [Bool.false_or]
      rw [ih]
      cases findSub rest [c] <;> simp

theorem findSub_singleton_take (temp : Str) (c : Char) :
    ∀ i, findSub temp [c] = some i →
      temp.take i = temp.takeWhile (fun x => decide (x ≠ c)) ∧ i ≤ temp.length := by
  induction temp with
  | nil => intro i h; simp [findSub, pyStartsWith] at h
  | cons a rest ih =>
    intro i h
    by_cases hc : a = c
    · subst hc
      have hsw : pyStartsWith (a :: rest) [a] = true := by simp [pyStartsWith]
      simp only [findSub, hsw, if_true, Option.some.injEq] at h
      subst h
      simp [List.takeWhile_cons]
    · have hsw : pyStartsWith (a :: rest) [c] = false := by simp [pyStartsWith, hc]
      simp only [findSub, hsw, Bool.false_eq_true, if_false, Option.map_eq_some'] at h
      obtain ⟨j, hj, hji⟩ := h
      obtain ⟨ht, hl⟩ := ih j hj
      subst hji
      constructor
      · simp [List.takeWhile_cons, hc, ht]
      · simpa using hl

theorem pySlice_zero_take (temp : Str) (i : Nat) (h : i ≤ temp.length) :
    pySlice temp 0 (i : Int) = temp.take i := by
  unfold pySlice pyIdx
  have h0 : ¬ ((0 : Int) < 0) := by omega
  have hi : ¬ ((i : Int) < 0) := by omega
  rw [if_neg h0, if_neg hi]
  simp [Int.toNat_natCast, min_eq_left h]

theorem extract_chain (temp : Str) :
    (let e1 := pyFind temp (lit " ")
     let e2 := if e1 = -1 then pyFind temp (lit ",") else e1
     let e3 := if e2 = -1 then pyFind temp (lit ";") else e2
     if e3 = -1 then none else some (pySlice temp 0 e3)) = priorityToken temp := by
  have single : ∀ (c : Char),
      (temp.contains c = true → ∃ i : Nat, pyFind temp [c] = (i : Int) ∧
        temp.take i = temp.takeWhile (fun x => decide (x ≠ c)) ∧ i ≤ temp.length) ∧
      (temp.contains c = false → pyFind temp [c] = -1) := by
    intro c
    constructor
    · intro hc
      cases hf : findSub temp [c] with
      | none =>
        rw [← contains_false_iff_findSub] at hf
        rw [hf] at hc
        exact absurd hc (by simp)
      | some i =>
        obtain ⟨ht, hl⟩ := findSub_singleton_take temp c i hf
        exact ⟨i, by simp [pyFind, hf], ht, hl⟩
    · intro hc
      rw [contains_false_iff_findSub] at hc
      simp [pyFind, hc]
  simp only []
  by_cases h1 : temp.contains ' '
  · obtain ⟨i, hfind, ht, hl⟩ := (single ' ').1 h1
    rw [show lit " " = [' '] from rfl, hfind]
    have hne : ¬ ((i : Int) = -1) := by omega
    rw [if_neg hne, if_neg hne, if_neg hne]
    rw [pySlice_zero_take temp i hl, ht]
    have h1m : ' ' ∈ temp := by simpa using h1
    simp [priorityToken, h1m]
  · have hm1 : pyFind temp (lit " ") = -1 :=
      (single ' ').2 (by simpa using h1)
    rw [hm1, if_pos rfl]
    by_cases h2 : temp.contains ','
    · obtain ⟨i, hfind, ht, hl⟩ := (single ',').1 h2
      rw [show lit "," = [','] from rfl, hfind]
      have hne : ¬ ((i : Int) = -1) := by omega
      rw [if_neg hne, if_neg hne]
      rw [pySlice_zero_take temp i hl, ht]
      have h1m : ' ' ∉ temp := by simpa using h1
      have h2m : ',' ∈ temp := by simpa using h2
      simp [priorityToken, h1m, h2m]
    · have hm2 : pyFind temp (lit ",") = -1 :=
        (single ',').2 (by simpa using h2)
      rw [hm2, if_pos rfl]
      by_cases h3 : temp.contains ';'
      · obtain ⟨i, hfind, ht, hl⟩ := (single ';').1 h3
        rw [show lit ";" = [';'] from rfl, hfind]
        have hne : ¬ ((i : Int) = -1) := by omega
        rw [if_neg hne]
        rw [pySlice_zero_take temp i hl, ht]
        have h1m : ' ' ∉ temp := by simpa using h1
        have h2m : ',' ∉ temp := by simpa using h2
        have h3m : ';' ∈ temp := by simpa using h3
        simp [priorityToken, h1m, h2m, h3m]
      · have hm3 : pyFind temp (lit ";") = -1 :=
          (single ';').2 (by simpa using h3)
        rw [hm3, if_pos rfl]
        have h1m : ' ' ∉ temp := by simpa using h1
        have h2m : ',' ∉ temp := by simpa using h2
        have h3m : ';' ∉ temp := by simpa using h3
        simp [priorityToken, h1m, h2m, h3m]

/-- Claim C3 (amended): for every query and parameter name, the extracted value
is the token of the space-trimmed remainder after the parameter's `=` that ends
at the first space when the remainder contains one, otherwise at the first
comma, otherwise at the first semicolon; when none of the three occurs the
parameter is skipped.  (The terminators are tried in that priority order, not
"whichever occurs first".) -/
theorem c3_extract_priority (query name : Str) :
    extractValue query name = priorityToken (paramTail query name) :=
  extract_chain (paramTail query name)

/-- Claim C3, counterexample: in `... a=1,2 ;` the comma occurs before the
space, so the claimed first-terminator semantics would yield `1`, but the
matcher extracts `1,2` (space beats comma in the implemented priority). -/
theorem c3_first_terminator_counterexample :
    extractValue c3Query (lit "a") = some (lit "1,2") ∧
    claimExtractValue c3Query (lit "a") = some (lit "1") ∧
    (queryPatternProcess c3Query c3Pattern).2 = [(lit "a", lit "1,2")] ∧
    queryPatternMatches c3Query c3Pattern = true :=
  ⟨rfl, rfl, rfl, rfl⟩

/-! ### Claim C5 -/

/-- Claim C5: with minutes first occurring out of chronological order, both the
by-minute report and the flattened by-minute-top report emit rows in dict
insertion order (`10:05` before `10:01`), not ascending minute order.  The
source's own TODO ("Volume report needs to be sorted by timestamp") records
the missing sort. -/
theorem c5_volume_insertion_order :
    (analyze c5Data c5Config).volume.map (fun e => e.group.minute) =
      [lit "2020-01-01 10:05", lit "2020-01-01 10:01"] ∧
    (analyze c5Data c5Config).volumeTop.map (fun e => e.group.minute) =
      [lit "2020-01-01 10:05", lit "2020-01-01 10:01"] ∧
    sortedAscBool (fun (e : RAgg VGrp) => e.group.minute)
      ((analyze c5Data c5Config).volume) = false ∧
    sortedAscBool (fun (e : RAgg VTGrp) => e.group.minute)
      ((analyze c5Data c5Config).volumeTop) = false ∧
    strLe (lit "2020-01-01 10:01") (lit "2020-01-01 10:05") = true :=
  ⟨rfl, rfl, rfl, rfl, rfl⟩

/-! ### Claim C8 -/

theorem and_false_of_notor {a b : Bool} (h : (!a || !b) = true) : (a && b) = false := by
  cases a <;> cases b <;> simp_all

theorem and_true_of_not_notor {a b : Bool} (h : ¬ ((!a || !b) = true)) :
    (a && b) = true := by
  cases a <;> cases b <;> simp_all

theorem pyStartsWith_append_left :
    ∀ (p : Str) (s q : Str), pyStartsWith s (p ++ q) = true → pyStartsWith s p = true := by
  intro p
  induction p with
  | nil => intro s q h; cases s <;> rfl
  | cons a ps ih =>
    intro s q h
    cases s with
    | nil => simp [pyStartsWith] at h
    | cons c cs =>
      obtain ⟨hc, hrest⟩ := startsWith_head h
      subst hc
      have htail := ih cs q hrest
      simp [pyStartsWith, htail]

theorem findSub_isSome_mono :
    ∀ (s p q : Str), (findSub s (p ++ q)).isSome = true → (findSub s p).isSome = true := by
  intro s p q
  induction s with
  | nil =>
    intro h
    cases p with
    | nil => rfl
    | cons a ps => simp [findSub, pyStartsWith] at h
  | cons c cs ih =>
    intro h
    by_cases hs : pyStartsWith (c :: cs) p = true
    · simp [findSub, hs]
    · have hs2 : pyStartsWith (c :: cs) (p ++ q) = false := by
        cases hx : pyStartsWith (c :: cs) (p ++ q) with
        | false => rfl
        | true => exact absurd (pyStartsWith_append_left p _ q hx) hs
      simp only [findSub, hs2, Bool.false_eq_true, if_false] at h
      have hs' : pyStartsWith (c :: cs) p = false := by
        cases hx : pyStartsWith (c :: cs) p with
        | false => rfl
        | true => exact absurd hx hs
      simp only [findSub, hs', Bool.false_eq_true, if_false]
      cases hfc : findSub cs (p ++ q) with
      | none =>
        rw [hfc] at h
        simp at h
      | some j =>
        have hsome : (findSub cs p).isSome = true := ih (by simp [hfc])
        cases hfp : findSub cs p with
        | none =>
          rw [hfp] at hsome
          simp at hsome
        | some i => simp [hfp]

theorem isSubstr_primary_key {line : Str}
    (h : isSubstr line (lit "PRIMARY KEY (") = true) :
    isSubstr line (lit "PRIMARY KEY") = true := by
  unfold isSubstr at h ⊢
  rw [show lit "PRIMARY KEY (" = lit "PRIMARY KEY" ++ lit " (" from rfl] at h
  exact findSub_isSome_mono line (lit "PRIMARY KEY") (lit " (") h

theorem processLines_ok_iff :
    ∀ (lines : List Str) (ret : Catalog) (ks cf : Option Str),
      (processLines lines ret ks cf).isOk =
        !(orphanKeyLine lines (truthyOptStr ks && truthyOptStr cf)) := by
  intro lines
  induction lines with
  | nil => intro ret ks cf; rfl
  | cons line rest ih =>
    intro ret ks cf
    simp only [processLines, orphanKeyLine]
    by_cases hct : isSubstr line (lit "CREATE TABLE") = true
    · simp only [hct, if_true]
      by_cases hpk1 : isSubstr line (lit "PRIMARY KEY (") = true
      · have hpk2 := isSubstr_primary_key hpk1
        simp only [hpk1, hpk2, if_true]
        by_cases hfal : (!truthyOptStr (parseCreateTable line).1 ||
            !truthyOptStr (parseCreateTable line).2) = true
        · rw [if_pos hfal, and_false_of_notor hfal]
          rfl
        · rw [if_neg hfal, and_true_of_not_notor hfal, ih]
          rfl
      · by_cases hpk2 : isSubstr line (lit "PRIMARY KEY") = true
        · simp only [hpk1, hpk2, Bool.false_eq_true, if_false, if_true]
          by_cases hfal : (!truthyOptStr (parseCreateTable line).1 ||
              !truthyOptStr (parseCreateTable line).2) = true
          · rw [if_pos hfal, and_false_of_notor hfal]
            rfl
          · rw [if_neg hfal, and_true_of_not_notor hfal, ih]
            rfl
        · simp only [hpk1, hpk2, Bool.false_eq_true, if_false]
          exact ih _ _ _
    · simp only [hct, Bool.false_eq_true, if_false]
      by_cases hpk1 : isSubstr line (lit "PRIMARY KEY (") = true
      · have hpk2 := isSubstr_primary_key hpk1
        simp only [hpk1, hpk2, if_true]
        by_cases hfal : (!truthyOptStr ks || !truthyOptStr cf) = true
        · rw [if_pos hfal, and_false_of_notor hfal]
          rfl
        · rw [if_neg hfal, and_true_of_not_notor hfal, ih]
          rfl
      · by_cases hpk2 : isSubstr line (lit "PRIMARY KEY") = true
        · simp only [hpk1, hpk2, Bool.false_eq_true, if_false, if_true]
          by_cases hfal : (!truthyOptStr ks || !truthyOptStr cf) = true
          · rw [if_pos hfal, and_false_of_notor hfal]
            rfl
          · rw [if_neg hfal, and_true_of_not_notor hfal, ih]
            rfl
        · simp only [hpk1, hpk2, Bool.false_eq_true, if_false]
          exact ih _ _ _

/-- Claim C8: schema processing raises its fatal error exactly on texts that
contain a key-declaration line not preceded by a table-declaration line
establishing the current keyspace and table (the context is consumed by each
key declaration and only re-established by a table declaration whose keyspace
and table both parse non-empty); texts with no such line return a catalog
without raising. -/
theorem c8_schema_orphan_key (schema : Str) :
    (schemaProcess schema).isOk = !(hasOrphanKeyLine schema) := by
  unfold schemaProcess hasOrphanKeyLine
  exact processLines_ok_iff (pySplitLines schema) [] none none

/-! ### Claim C7 -/

theorem buildKeyspaceGuesses_flat (schema : Catalog) :
    buildKeyspaceGuesses schema =
      (schema.flatMap (fun p => p.2.map (fun q => (q.1, p.1)))).foldl guessStep [] := by
  suffices h : ∀ (acc : List (Option Str × Option Str)),
      schema.foldl (fun acc p => p.2.foldl (fun acc q => guessStep acc (q.1, p.1)) acc) acc =
        (schema.flatMap (fun p => p.2.map (fun q => (q.1, p.1)))).foldl guessStep acc by
    exact h []
  induction schema with
  | nil => intro acc; rfl
  | cons p ps ih =>
    intro acc
    rw [List.foldl_cons, ih, List.flatMap_cons, List.foldl_append, List.foldl_map]

theorem guessStep_preserve {cfKey : Option Str} (acc : List (Option Str × Option Str))
    (q : Option Str × Option Str) (hq : ¬ (q.1 = cfKey)) :
    dictGet (guessStep acc q) cfKey = dictGet acc cfKey := by
  have hne : cfKey ≠ q.1 := fun he => hq he.symm
  unfold guessStep
  by_cases hh : dictHas acc q.1 = true
  · rw [if_pos hh, dictGet_dictSet_ne _ _ hne]
  · rw [if_neg hh, dictGet_dictSet_ne _ _ hne]

theorem guessStep_sets {cfKey : Option Str} (acc : List (Option Str × Option Str))
    (q : Option Str × Option Str) (hq : q.1 = cfKey) :
    dictHas (guessStep acc q) cfKey = true := by
  unfold dictHas guessStep
  by_cases hh : dictHas acc q.1 = true
  · rw [if_pos hh, hq, dictGet_dictSet_self]
    rfl
  · rw [if_neg hh, hq, dictGet_dictSet_self]
    rfl

theorem guessFold_preserve (cfKey : Option Str) :
    ∀ (l : List (Option Str × Option Str)) (acc : List (Option Str × Option Str)),
      l.countP (fun q => decide (q.1 = cfKey)) = 0 →
      dictGet (l.foldl guessStep acc) cfKey = dictGet acc cfKey := by
  intro l
  induction l with
  | nil => intro acc _; rfl
  | cons q rest ih =>
    intro acc hc
    rw [List.countP_cons] at hc
    have hq : ¬ (q.1 = cfKey) := by
      intro he
      simp [he] at hc
    have hq' : (decide (q.1 = cfKey)) = false := decide_eq_false hq
    rw [hq'] at hc
    simp only [Bool.false_eq_true, if_false, Nat.add_zero] at hc
    rw [List.foldl_cons, ih _ hc, guessStep_preserve acc q hq]

theorem guessFold_has (cfKey : Option Str) :
    ∀ (l : List (Option Str × Option Str)) (acc : List (Option Str × Option Str)),
      (dictHas acc cfKey = true ∨ 1 ≤ l.countP (fun q => decide (q.1 = cfKey))) →
      dictHas (l.foldl guessStep acc) cfKey = true := by
  intro l
  induction l with
  | nil =>
    intro acc h
    rcases h with h | h
    · exact h
    · simp [List.countP_nil] at h
  | cons q rest ih =>
    intro acc h
    rw [List.foldl_cons]
    by_cases hq : q.1 = cfKey
    · exact ih _ (Or.inl (guessStep_sets acc q hq))
    · apply ih
      rcases h with h | h
      · refine Or.inl ?_
        unfold dictHas
        rw [guessStep_preserve acc q hq]
        exact h
      · refine Or.inr ?_
        rw [List.countP_cons, decide_eq_false hq] at h
        simpa using h

theorem guessFold_unknown (cfKey : Option Str) :
    ∀ (l : List (Option Str × Option Str)) (acc : List (Option Str × Option Str)),
      (2 ≤ l.countP (fun q => decide (q.1 = cfKey)) ∨
        (1 ≤ l.countP (fun q => decide (q.1 = cfKey)) ∧ dictHas acc cfKey = true)) →
      dictGet (l.foldl guessStep acc) cfKey = some (some (lit "unknown")) := by
  intro l
  induction l with
  | nil =>
    intro acc h
    rcases h with h | ⟨h, _⟩ <;> simp [List.countP_nil] at h
  | cons q rest ih =>
    intro acc h
    rw [List.foldl_cons]
    by_cases hq : q.1 = cfKey
    · by_cases hh : dictHas acc q.1 = true
      · by_cases hr : 1 ≤ rest.countP (fun q => decide (q.1 = cfKey))
        · exact ih _ (Or.inr ⟨hr, guessStep_sets acc q hq⟩)
        · have hr0 : rest.countP (fun q => decide (q.1 = cfKey)) = 0 := by omega
          rw [guessFold_preserve cfKey rest _ hr0]
          unfold guessStep
          rw [if_pos hh, hq, dictGet_dictSet_self]
      · have h2 : 2 ≤ (q :: rest).countP (fun q => decide (q.1 = cfKey)) := by
          rcases h with h | ⟨_, hhas⟩
          · exact h
          · rw [hq] at hh
            exact absurd hhas hh
        have hr : 1 ≤ rest.countP (fun q => decide (q.1 = cfKey)) := by
          rw [List.countP_cons, decide_eq_true hq] at h2
          simp only [if_true] at h2
          omega
        exact ih _ (Or.inr ⟨hr, guessStep_sets acc q hq⟩)
    · have hpres := guessStep_preserve acc q hq
      apply ih
      rw [List.countP_cons, decide_eq_false hq] at h
      simp only [Bool.false_eq_true, if_false, Nat.add_zero] at h
      rcases h with h | ⟨h1, h2⟩
      · exact Or.inl h
      · refine Or.inr ⟨h1, ?_⟩
        unfold dictHas
        rw [hpres]
        exact h2

theorem sum_le_of_mem {α : Type} (f : α → Nat) :
    ∀ (l : List α) (a : α), a ∈ l → f a ≤ (l.map f).sum := by
  intro l
  induction l with
  | nil =>
    intro a ha
    simp at ha
  | cons x xs ih =>
    intro a ha
    rw [List.map_cons, List.sum_cons]
    rcases List.mem_cons.mp ha with rfl | ha'
    · omega
    · have := ih a ha'
      omega

theorem two_mem_sum {α : Type} (f : α → Nat) :
    ∀ (l : List α) (a b : α), a ∈ l → b ∈ l → a ≠ b →
      1 ≤ f a → 1 ≤ f b → 2 ≤ (l.map f).sum := by
  intro l
  induction l with
  | nil =>
    intro a b ha
    simp at ha
  | cons x xs ih =>
    intro a b ha hb hne hfa hfb
    rw [List.map_cons, List.sum_cons]
    rcases List.mem_cons.mp ha with rfl | ha'
    · rcases List.mem_cons.mp hb with rfl | hb'
      · exact absurd rfl hne
      · have := sum_le_of_mem f xs b hb'
        omega
    · rcases List.mem_cons.mp hb with rfl | hb'
      · have := sum_le_of_mem f xs a ha'
        omega
      · have := ih a b ha' hb' hne hfa hfb
        omega

theorem countP_flatMap_sum {α β : Type} (p : β → Bool) (f : α → List β) :
    ∀ (l : List α), (l.flatMap f).countP p = (l.map (fun a => (f a).countP p)).sum := by
  intro l
  induction l with
  | nil => rfl
  | cons x xs ih =>
    rw [List.flatMap_cons, List.countP_append, ih, List.map_cons, List.sum_cons]

/-- Claim C7 (amended): when the same table name is owned by two different
keyspaces in the schema and no record tag matches the configured tag mapping,
the bare table name resolves to the ambiguity marker `'unknown'`; and —
provided no schema keyspace is itself literally named `unknown` — a lookup
under the marker keyspace resolves no primary key (`None`), so the event
contributes no entry to the keyspace-cf-pk rollup (the fold leaves that rollup
untouched for events with a null primary key). -/
theorem c7_ambiguous_unknown (config : Config) (cf : Str) (tags : List Str)
    (tagMap : List (Str × Str))
    (hTags : config.tags = some tagMap)
    (hTwo : ∃ p1, p1 ∈ config.schema ∧ ∃ p2, p2 ∈ config.schema ∧ p1.1 ≠ p2.1 ∧
      dictHas p1.2 (some cf) = true ∧ dictHas p2.2 (some cf) = true)
    (hNoMatch : ∀ t ∈ tags, dictHas tagMap t = false)
    (hNoUnknown : dictGet config.schema (some (lit "unknown")) = none) :
    guessKeyspace config cf tags = some (lit "unknown") ∧
    (∀ (bv : List (Str × Str)) (cf2 : Str),
      getPrimaryKey config bv (lit "unknown") cf2 = Except.ok none) ∧
    (∀ (a : AMaps) (d : Datum), d.primaryKey = none →
      (analyzeStep a d).primaryKey = a.primaryKey) := by
  have hg : dictGet (buildKeyspaceGuesses config.schema) (some cf) =
      some (some (lit "unknown")) := by
    rw [buildKeyspaceGuesses_flat]
    apply guessFold_unknown (some cf) _ []
    refine Or.inl ?_
    obtain ⟨p1, hp1, p2, hp2, hne12, h1, h2⟩ := hTwo
    rw [countP_flatMap_sum]
    have hcnt : ∀ p : Option Str × List (Option Str × TableVal),
        dictHas p.2 (some cf) = true →
        1 ≤ ((p.2.map (fun q => (q.1, p.1))).countP fun q => decide (q.1 = some cf)) := by
      intro p hp
      rw [List.countP_map]
      unfold dictHas at hp
      cases hv : dictGet p.2 (some cf) with
      | none => rw [hv] at hp; simp at hp
      | some v =>
        have hmem := dictGet_mem hv
        have hpos : 0 < (p.2.countP fun a => decide (a.1 = some cf)) := by
          rw [List.countP_pos_iff]
          exact ⟨(some cf, v), hmem, by simp⟩
        simpa [Function.comp] using hpos
    exact two_mem_sum _ config.schema p1 p2 hp1 hp2
      (fun he => hne12 (by rw [he])) (hcnt p1 h1) (hcnt p2 h2)
  refine ⟨?_, ?_, ?_⟩
  · have hfind : tags.find? (fun t => dictHas tagMap t) = none :=
      List.find?_eq_none.mpr (fun t ht => by simp [hNoMatch t ht])
    simp only [guessKeyspace, hTags, Option.getD_some]
    by_cases hcond : (cfgTagsTruthy config &&
        (!dictHas (buildKeyspaceGuesses config.schema) (some cf) ||
          decide (dictGet (buildKeyspaceGuesses config.schema) (some cf) =
            some (some (lit "unknown"))))) = true
    · rw [if_pos hcond, hfind]
      show (match (Option.bind none fun t => dictGet tagMap t : Option Str) with
        | some ks => some ks
        | none =>
          match dictGet (buildKeyspaceGuesses config.schema) (some cf) with
          | some v => v
          | none => none) = some (lit "unknown")
      rw [show (Option.bind none fun t => dictGet tagMap t : Option Str) = none from rfl, hg]
    · rw [if_neg hcond]
      show (match (none : Option Str) with
        | some ks => some ks
        | none =>
          match dictGet (buildKeyspaceGuesses config.schema) (some cf) with
          | some v => v
          | none => none) = some (lit "unknown")
      rw [hg]
  · intro bv cf2
    unfold getPrimaryKey
    rw [hNoUnknown]
    show noSchemaBranch config = _
    unfold noSchemaBranch
    rw [hTags]
  · intro a d hpk
    have hempty : pkOf d = [] := by
      simp [pkOf, pyOrEmpty, hpk]
    simp [analyzeStep, hempty]

/-- Claim C7, witness: table `t` owned by both `ks1` and `ks2`, a tag list
matching nothing — the bare name resolves to `unknown` and no primary key
resolves under the marker. -/
theorem c7_ambiguous_unknown_witness :
    guessKeyspace c7AmbConfig (lit "t") [lit "web"] = some (lit "unknown") ∧
    getPrimaryKey c7AmbConfig [(lit "a", lit "1")] (lit "unknown") (lit "t") =
      Except.ok none := by
  have h := c7_ambiguous_unknown c7AmbConfig (lit "t") [lit "web"] [] rfl
    ⟨(some (lit "ks1"), [(some (lit "t"), some ⟨[lit "a"], []⟩)]), by decide,
     (some (lit "ks2"), [(some (lit "t"), some ⟨[lit "a"], []⟩)]), by decide,
     by decide, by decide, by decide⟩
    (by intro t ht; rfl) (by decide)
  exact ⟨h.1, h.2.1 [(lit "a", lit "1")] (lit "t")⟩

/-- Claim C7, counterexample: the ambiguity marker is the literal string
`'unknown'`; with a real keyspace named `unknown` owning the same table, the
resolution still yields the marker but the primary-key lookup then succeeds
against the `unknown` keyspace, and the event does contribute an entry to the
keyspace-cf-pk rollup. -/
theorem c7_unknown_collision :
    guessKeyspace c7Config (lit "t") [] = some (lit "unknown") ∧
    processMessage c7Msg [] c7Config =
      Except.ok
        { type := lit "SELECT", duration := 10,
          query := lit "SELECT * FROM t WHERE a=?;",
          boundValues := [(lit "a", lit "1")], keyspace := some (lit "unknown"),
          columnFamily := some (lit "t"), primaryKey := some (lit "1") } ∧
    (analyzeFold [c7Datum]).primaryKey =
      [(lit "unknown.t.1", ⟨1, 10, ⟨lit "unknown", lit "t", lit "1"⟩⟩)] :=
  ⟨rfl, rfl, rfl⟩

/-! ### Claim C10 -/

/-- Claim C10: in every rollup (the four flat ones and each minute's nested
volume-top entries), the grouping fields stored in an entry are exactly those
computed from the first event that created the entry; later events with the
same key only touch count and duration, so the lookup's group equals the
group of the first contributing datum. -/
theorem c10_group_fields_immutable (data : List Datum) (k : Str) :
    ((dictGet (analyzeFold data).query k).map (fun e => e.group) =
      (data.find? (fun d => qKey d == k)).map qGrp) ∧
    ((dictGet (analyzeFold data).queryPk k).map (fun e => e.group) =
      (data.find? (fun d => decide (pkOf d ≠ []) && (qpkKey d == k))).map qpGrp) ∧
    ((dictGet (analyzeFold data).primaryKey k).map (fun e => e.group) =
      (data.find? (fun d =>
        decide (pkOf d ≠ [] ∧ ksOf d ≠ [] ∧ cfOf d ≠ []) && (kcpKey d == k))).map pkGrp) ∧
    ((dictGet (analyzeFold data).volume k).map (fun e => e.group) =
      (data.find? (fun d => d.minute == k)).map vGrp) ∧
    (∀ m, (nestedGet (analyzeFold data).volumeTop m k).map (fun e => e.group) =
      (data.find? (fun d => (d.minute == m) && (qpkKey d == k))).map vtGrp) := by
  obtain ⟨h1, h2, h3, h4, h5⟩ := analyzeFold_proj data {}
  refine ⟨?_, ?_, ?_, ?_, ?_⟩
  · rw [show (analyzeFold data).query = rollupFold (fun _ => True) qKey qGrp data [] from h1,
      rollupFold_group]
    show (data.find? (fun d => decide True && (qKey d == k))).map qGrp = _
    have hp : (fun d : Datum => decide True && (qKey d == k)) = (fun d => qKey d == k) :=
      funext (fun d => by simp)
    rw [hp]
  · rw [show (analyzeFold data).queryPk =
        rollupFold (fun d => pkOf d ≠ []) qpkKey qpGrp data [] from h2, rollupFold_group]
    rfl
  · rw [show (analyzeFold data).primaryKey =
        rollupFold (fun d => pkOf d ≠ [] ∧ ksOf d ≠ [] ∧ cfOf d ≠ [])
          kcpKey pkGrp data [] from h3, rollupFold_group]
    rfl
  · rw [show (analyzeFold data).volume =
        rollupFold (fun _ => True) (fun d => d.minute) vGrp data [] from h4,
      rollupFold_group]
    show (data.find? (fun d => decide True && (d.minute == k))).map vGrp = _
    have hp : (fun d : Datum => decide True && (d.minute == k)) =
        (fun d => d.minute == k) := funext (fun d => by simp)
    rw [hp]
  · intro m
    rw [show (analyzeFold data).volumeTop = nestedFold data [] from h5]
    unfold nestedGet
    rw [nestedFold_lookup data [] m]
    by_cases hany : data.any (fun d => d.minute == m) = true
    · have hcond : (dictHas ([] : List (Str × List (Str × Agg VTGrp))) m ||
          data.any (fun d => d.minute == m)) = true := by
        simp [dictHas, dictGet, hany]
      rw [if_pos hcond]
      show (dictGet (bumpFold (data.filter fun d => d.minute == m) []) k).map
        (fun e => e.group) = _
      rw [bumpFold_eq_rollupFold, rollupFold_group]
    
      show ((data.filter fun d => d.minute == m).find?
        (fun d => decide True && (qpkKey d == k))).map vtGrp = _
      have hp : (fun d : Datum => decide True && (qpkKey d == k)) =
          (fun d => qpkKey d == k) := funext (fun d => by simp)
      rw [hp, find?_filter_fuse]
    · have hfalse : data.any (fun d => d.minute == m) = false := by
        cases hx : data.any (fun d => d.minute == m) with
        | false => rfl
        | true => exact absurd hx hany
      have hcond : ¬ ((dictHas ([] : List (Str × List (Str × Agg VTGrp))) m ||
          data.any (fun d => d.minute == m)) = true) := by
        simp [dictHas, dictGet, hfalse]
      rw [if_neg hcond]
      have hnone : data.find? (fun d => (d.minute == m) && (qpkKey d == k)) = none := by
        apply List.find?_eq_none.mpr
        intro x hx
        have hxm := (List.any_eq_false.mp hfalse) x hx
        simp only [Bool.not_eq_true] at hxm
        simp [hxm]
      rw [hnone]
      rfl

/-! ### Claim C6 -/

section C6Generic

variable {γ : Type} (guard : Datum → Prop) [DecidablePred guard]
variable (key : Datum → Str) (grp : Datum → γ) (keyFn : γ → Str)

theorem flat_min_count_gate
    (hkg : ∀ d, keyFn (grp d) = key d)
    (data : List Datum) (config : Config) (k : Str) (e : Agg γ)
    (he : dictGet (rollupFold guard key grp data []) k = some e) :
    (e.count < config.minCount →
      ∀ x ∈ dictVals (avgMap (filterMinCount config.minCount
          (rollupFold guard key grp data []))), keyFn x.group ≠ k) ∧
    (config.minCount ≤ e.count →
      avgEntry e ∈ dictVals (avgMap (filterMinCount config.minCount
        (rollupFold guard key grp data [])))) := by
  have hnodup : (dictKeys (rollupFold guard key grp data [])).Nodup :=
    nodup_rollupFold _ _ _ data [] (by simp [dictKeys])
  have hkeycons : ∀ p ∈ rollupFold guard key grp data [], keyFn p.2.group = p.1 :=
    rollupFold_keyFn _ _ _ keyFn hkg data [] (by simp)
  constructor
  · intro hlt x hx hkx
    obtain ⟨k', hk'⟩ := mem_dictVals.mp hx
    obtain ⟨q, hq, hqeq⟩ := List.mem_map.mp hk'
    have hqm : q ∈ rollupFold guard key grp data [] := (mem_filterMinCount.mp hq).1
    have hqc : config.minCount ≤ q.2.count := (mem_filterMinCount.mp hq).2
    have hx3 : x = avgEntry q.2 := by
      have := congrArg Prod.snd hqeq
      simpa using this.symm
    have hkq : keyFn q.2.group = q.1 := hkeycons q hqm
    have hgx : x.group = q.2.group := by rw [hx3]; rfl
    have hkk : q.1 = k := by rw [← hkq, ← hgx, hkx]
    have hlook : dictGet (rollupFold guard key grp data []) q.1 = some q.2 := by
      apply mem_dictGet _ hnodup
      rw [Prod.mk.eta]
      exact hqm
    rw [hkk, he] at hlook
    have heq : q.2 = e := (Option.some.inj hlook).symm
    rw [heq] at hqc
    omega
  · intro hge
    have hfl : dictGet (filterMinCount config.minCount
        (rollupFold guard key grp data [])) k = some e := by
      rw [filterMinCount_lookup _ _ _ hnodup, he]
      simp [hge]
    have hmem : (k, e) ∈ filterMinCount config.minCount
        (rollupFold guard key grp data []) := dictGet_mem hfl
    have hmem2 : (k, avgEntry e) ∈ avgMap (filterMinCount config.minCount
        (rollupFold guard key grp data [])) :=
      List.mem_map_of_mem _ hmem
    exact mem_dictVals.mpr ⟨k, hmem2⟩

end C6Generic

theorem nestedFold_bucket (data : List Datum) {mk : Str} {inner : List (Str × Agg VTGrp)}
    (h : dictGet (nestedFold data []) mk = some inner) :
    inner = rollupFold (fun _ => True) qpkKey vtGrp
      (data.filter (fun d => d.minute == mk)) [] := by
  have hchar := nestedFold_lookup data [] mk
  rw [h] at hchar
  by_cases hcond : ((dictHas ([] : List (Str × List (Str × Agg VTGrp))) mk ||
      data.any (fun d => d.minute == mk))) = true
  · rw [if_pos hcond] at hchar
    have hi := Option.some.inj hchar
    rw [hi, bumpFold_eq_rollupFold]
    rfl
  · rw [if_neg hcond] at hchar
    exact absurd hchar (by simp)

theorem nestedFold_inner_inv (data : List Datum) {mk : Str}
    {inner : List (Str × Agg VTGrp)}
    (h : dictGet (nestedFold data []) mk = some inner) :
    (dictKeys inner).Nodup ∧
    (∀ p ∈ inner, (p.2.group.query ++ lit "." ++ p.2.group.primaryKey) = p.1) ∧
    (∀ p ∈ inner, p.2.group.minute = mk) := by
  have hInner := nestedFold_bucket data h
  refine ⟨?_, ?_, ?_⟩
  · rw [hInner]
    exact nodup_rollupFold _ _ _ _ [] (by simp [dictKeys])
  · rw [hInner]
    exact rollupFold_keyFn (fun _ => True) qpkKey vtGrp
      (fun g : VTGrp => g.query ++ lit "." ++ g.primaryKey)
      (fun d => rfl) _ [] (by simp)
  · rw [hInner]
    apply rollupFold_groupProp (fun _ => True) qpkKey vtGrp
      (fun g : VTGrp => g.minute = mk) _ [] ?_ (by simp)
    intro d hd _
    exact eq_of_beq (List.mem_filter.mp hd).2

theorem c6_nested_gate (data : List Datum) (config : Config) (m k : Str) (e : Agg VTGrp)
    (he : nestedGet (analyzeFold data).volumeTop m k = some e) :
    (e.count < config.minCount →
      ∀ x ∈ (analyze data config).volumeTop,
        ¬ (x.group.minute = m ∧ x.group.query ++ lit "." ++ x.group.primaryKey = k)) ∧
    (config.minCount ≤ e.count → avgEntry e ∈ volumeTopRankedAt data config m) := by
  have hvt : (analyzeFold data).volumeTop = nestedFold data [] :=
    (analyzeFold_proj data {}).2.2.2.2
  rw [hvt] at he
  unfold nestedGet at he
  cases houter : dictGet (nestedFold data []) m with
  | none =>
    rw [houter] at he
    simp at he
  | some innerM =>
  rw [houter] at he
  have hinner : dictGet innerM k = some e := he
  obtain ⟨hnodupInner, hkeyconsInner, hminuteInner⟩ := nestedFold_inner_inv data houter
  constructor
  · intro hlt x hx hxprop
    obtain ⟨hxm, hxk⟩ := hxprop
    have hx' : x ∈ ((rankedMaps data config).volumeTop.map
        (fun p => (sortDesc config (dictVals p.2)).take config.rowsPerMinute)).flatten := hx
    obtain ⟨l, hl, hxl⟩ := List.mem_flatten.mp hx'
    obtain ⟨p, hp, hpl⟩ := List.mem_map.mp hl
    rw [← hpl] at hxl
    have hx2 : x ∈ sortDesc config (dictVals p.2) := List.take_subset _ _ hxl
    have hx3 : x ∈ dictVals p.2 := (mem_sortDesc _ _ _).mp hx2
    have hp' : p ∈ ((analyzeFold data).volumeTop.map
        (fun p => (p.1, filterMinCount config.minCount p.2))).map
        (fun p => (p.1, avgMap p.2)) := hp
    obtain ⟨p1, hp1, hp1e⟩ := List.mem_map.mp hp'
    obtain ⟨q, hq, hqe⟩ := List.mem_map.mp hp1
    rw [hvt] at hq
    have hp2 : p.2 = avgMap (filterMinCount config.minCount q.2) := by
      rw [← hp1e, ← hqe]
    have hpfst : p.1 = q.1 := by
      rw [← hp1e, ← hqe]
    rw [hp2] at hx3
    obtain ⟨kk, hkk⟩ := mem_dictVals.mp hx3
    obtain ⟨r, hr, hre⟩ := List.mem_map.mp hkk
    have hr2 : r ∈ q.2 := (mem_filterMinCount.mp hr).1
    have hrc : config.minCount ≤ r.2.count := (mem_filterMinCount.mp hr).2
    have hxr : x = avgEntry r.2 := by
      have := congrArg Prod.snd hre
      simpa using this.symm
    have hgx : x.group = r.2.group := by
      rw [hxr]
      rfl
    have hqlook : dictGet (nestedFold data []) q.1 = some q.2 := by
      apply mem_dictGet _ (nodup_nestedFold data [] (by simp [dictKeys]))
      rw [Prod.mk.eta]
      exact hq
    obtain ⟨hnodupQ, hkeyconsQ, hminuteQ⟩ := nestedFold_inner_inv data hqlook
    have hq1m : q.1 = m := by
      rw [← hminuteQ r hr2, ← hgx, hxm]
    have hr1k : r.1 = k := by
      rw [← hkeyconsQ r hr2, ← hgx]
      exact hxk
    have hqinner : q.2 = innerM := by
      rw [hq1m] at hqlook
      exact Option.some.inj (hqlook.symm.trans houter)
    have hrlook : dictGet innerM r.1 = some r.2 := by
      rw [← hqinner]
      apply mem_dictGet _ hnodupQ
      rw [Prod.mk.eta]
      exact hr2
    rw [hr1k, hinner] at hrlook
    have : r.2 = e := (Option.some.inj hrlook).symm
    rw [this] at hrc
    omega
  · intro hge
    have hfl : dictGet (filterMinCount config.minCount innerM) k = some e := by
      rw [filterMinCount_lookup _ _ _ hnodupInner, hinner]
      simp [hge]
    have hrm : dictGet (rankedMaps data config).volumeTop m =
        some (avgMap (filterMinCount config.minCount innerM)) := by
      show dictGet (((analyzeFold data).volumeTop.map
          (fun p => (p.1, filterMinCount config.minCount p.2))).map
          (fun p => (p.1, avgMap p.2))) m = _
      rw [dictGet_mapVals, dictGet_mapVals, hvt, houter]
      rfl
    unfold volumeTopRankedAt
    rw [hrm]
    show avgEntry e ∈ sortDesc config
      (dictVals (avgMap (filterMinCount config.minCount innerM)))
    apply (mem_sortDesc _ _ _).mpr
    exact mem_dictVals.mpr ⟨k, List.mem_map_of_mem _ (dictGet_mem hfl)⟩

/-- C6: after the aggregation fold over any event sequence, every rollup entry
whose count is below `min_count` is absent from the corresponding report (no
report row recomputes to its key), and every entry whose count is at least
`min_count` is present in its rollup's report output, subject only to the later
top-N / rows-per-minute truncation (the pre-truncation ranked lists for the
three sorted reports and for each minute of the volume-top report; the volume
report itself, which is never truncated).  This covers all five rollups,
including each minute's nested entries. -/
theorem c6_min_count_gate (data : List Datum) (config : Config) (k : Str) :
    (∀ e : Agg QGrp, dictGet (analyzeFold data).query k = some e →
      (e.count < config.minCount →
        ∀ x ∈ (analyze data config).query, x.group.query ≠ k) ∧
      (config.minCount ≤ e.count → avgEntry e ∈ queryRanked data config)) ∧
    (∀ e : Agg QPGrp, dictGet (analyzeFold data).queryPk k = some e →
      (e.count < config.minCount →
        ∀ x ∈ (analyze data config).queryPk,
          x.group.query ++ lit "." ++ x.group.primaryKey ≠ k) ∧
      (config.minCount ≤ e.count → avgEntry e ∈ queryPkRanked data config)) ∧
    (∀ e : Agg PKGrp, dictGet (analyzeFold data).primaryKey k = some e →
      (e.count < config.minCount →
        ∀ x ∈ (analyze data config).primaryKey,
          x.group.keyspace ++ lit "." ++ x.group.columnFamily ++ lit "." ++
            x.group.primaryKey ≠ k) ∧
      (config.minCount ≤ e.count → avgEntry e ∈ primaryKeyRanked data config)) ∧
    (∀ e : Agg VGrp, dictGet (analyzeFold data).volume k = some e →
      (e.count < config.minCount →
        ∀ x ∈ (analyze data config).volume, x.group.minute ≠ k) ∧
      (config.minCount ≤ e.count → avgEntry e ∈ (analyze data config).volume)) ∧
    (∀ (m : Str) (e : Agg VTGrp), nestedGet (analyzeFold data).volumeTop m k = some e →
      (e.count < config.minCount →
        ∀ x ∈ (analyze data config).volumeTop,
          ¬ (x.group.minute = m ∧ x.group.query ++ lit "." ++ x.group.primaryKey = k)) ∧
      (config.minCount ≤ e.count → avgEntry e ∈ volumeTopRankedAt data config m)) := by
  refine ⟨?_, ?_, ?_, ?_, ?_⟩
  · intro e he
    have hq : (analyzeFold data).query = rollupFold (fun _ => True) qKey qGrp data [] :=
      (analyzeFold_proj data {}).1
    rw [hq] at he
    have hg := flat_min_count_gate (fun _ => True) qKey qGrp
      (fun g : QGrp => g.query) (fun d => rfl) data config k e he
    have hrm : (rankedMaps data config).query = avgMap (filterMinCount config.minCount
        (rollupFold (fun _ => True) qKey qGrp data [])) := by
      show avgMap (filterMinCount config.minCount (analyzeFold data).query) = _
      rw [hq]
    constructor
    · intro hlt x hx
      have hx0 : x ∈ (sortDesc config (dictVals (rankedMaps data config).query)).take
          config.topN := hx
      have hx1 := List.take_subset _ _ hx0
      have hx2 := (mem_sortDesc _ _ _).mp hx1
      rw [hrm] at hx2
      exact hg.1 hlt x hx2
    · intro hge
      show avgEntry e ∈ sortDesc config (dictVals (rankedMaps data config).query)
      rw [hrm]
      exact (mem_sortDesc _ _ _).mpr (hg.2 hge)
  · intro e he
    have hq : (analyzeFold data).queryPk =
        rollupFold (fun d => pkOf d ≠ []) qpkKey qpGrp data [] :=
      (analyzeFold_proj data {}).2.1
    rw [hq] at he
    have hg := flat_min_count_gate (fun d => pkOf d ≠ []) qpkKey qpGrp
      (fun g : QPGrp => g.query ++ lit "." ++ g.primaryKey) (fun d => rfl)
      data config k e he
    have hrm : (rankedMaps data config).queryPk = avgMap (filterMinCount config.minCount
        (rollupFold (fun d => pkOf d ≠ []) qpkKey qpGrp data [])) := by
      show avgMap (filterMinCount config.minCount (analyzeFold data).queryPk) = _
      rw [hq]
    constructor
    · intro hlt x hx
      have hx0 : x ∈ (sortDesc config (dictVals (rankedMaps data config).queryPk)).take
          config.topN := hx
      have hx1 := List.take_subset _ _ hx0
      have hx2 := (mem_sortDesc _ _ _).mp hx1
      rw [hrm] at hx2
      exact hg.1 hlt x hx2
    · intro hge
      show avgEntry e ∈ sortDesc config (dictVals (rankedMaps data config).queryPk)
      rw [hrm]
      exact (mem_sortDesc _ _ _).mpr (hg.2 hge)
  · intro e he
    have hq : (analyzeFold data).primaryKey =
        rollupFold (fun d => pkOf d ≠ [] ∧ ksOf d ≠ [] ∧ cfOf d ≠ [])
          kcpKey pkGrp data [] :=
      (analyzeFold_proj data {}).2.2.1
    rw [hq] at he
    have hg := flat_min_count_gate
      (fun d => pkOf d ≠ [] ∧ ksOf d ≠ [] ∧ cfOf d ≠ []) kcpKey pkGrp
      (fun g : PKGrp => g.keyspace ++ lit "." ++ g.columnFamily ++ lit "." ++ g.primaryKey)
      (fun d => rfl) data config k e he
    have hrm : (rankedMaps data config).primaryKey =
        avgMap (filterMinCount config.minCount
          (rollupFold (fun d => pkOf d ≠ [] ∧ ksOf d ≠ [] ∧ cfOf d ≠ [])
            kcpKey pkGrp data [])) := by
      show avgMap (filterMinCount config.minCount (analyzeFold data).primaryKey) = _
      rw [hq]
    constructor
    · intro hlt x hx
      have hx0 : x ∈ (sortDesc config (dictVals (rankedMaps data config).primaryKey)).take
          config.topN := hx
      have hx1 := List.take_subset _ _ hx0
      have hx2 := (mem_sortDesc _ _ _).mp hx1
      rw [hrm] at hx2
      exact hg.1 hlt x hx2
    · intro hge
      show avgEntry e ∈ sortDesc config (dictVals (rankedMaps data config).primaryKey)
      rw [hrm]
      exact (mem_sortDesc _ _ _).mpr (hg.2 hge)
  · intro e he
    have hq : (analyzeFold data).volume =
        rollupFold (fun _ => True) (fun d => d.minute) vGrp data [] :=
      (analyzeFold_proj data {}).2.2.2.1
    rw [hq] at he
    have hg := flat_min_count_gate (fun _ => True) (fun d => d.minute) vGrp
      (fun g : VGrp => g.minute) (fun d => rfl) data config k e he
    have hrm : (rankedMaps data config).volume = avgMap (filterMinCount config.minCount
        (rollupFold (fun _ => True) (fun d => d.minute) vGrp data [])) := by
      show avgMap (filterMinCount config.minCount (analyzeFold data).volume) = _
      rw [hq]
    constructor
    · intro hlt x hx
      have hx2 : x ∈ dictVals (rankedMaps data config).volume := hx
      rw [hrm] at hx2
      exact hg.1 hlt x hx2
    · intro hge
      show avgEntry e ∈ dictVals (rankedMaps data config).volume
      rw [hrm]
      exact hg.2 hge
  · intro m e he
    exact c6_nested_gate data config m k e he

/-- Witness for C6: on the concrete two-event input `c6Data` with
`min_count = 2`, the by-query entry for key `"Q"` has count 2 and its averaged
row appears in the ranked by-query report. -/
theorem c6_min_count_gate_witness :
    dictGet (analyzeFold c6Data).query (lit "Q") =
      some ⟨2, 10, ⟨lit "Q", [], []⟩⟩ ∧
    c6Config.minCount ≤ 2 ∧
    avgEntry (⟨2, 10, ⟨lit "Q", [], []⟩⟩ : Agg QGrp) ∈ queryRanked c6Data c6Config :=
  ⟨rfl, by decide,
    ((c6_min_count_gate c6Data c6Config (lit "Q")).1
      ⟨2, 10, ⟨lit "Q", [], []⟩⟩ rfl).2 (by decide)⟩
